import Mathlib

/-!
Shallow embedding of the `mapgen` repository (a procedural 2D tile map
generator) and verification of the frozen claims about it.

Source layout mirrored here:
* namespace `Src`  — `src/src/map.rs` (3-variant `BlockType`, `Kernel`,
  `Map::update`);
* namespace `Core` — `src/core/src/map.rs` (8-variant `BlockType`,
  `GameTile`, `Overwrite`, `Map::apply_kernel`, `Map::set_area`);
* namespace `Gen`  — `src/src/generator.rs` and `src/src/post_processing.rs`
  (the generation pipeline and post-processing passes).

Grids are embedded as functions `Nat → Nat → BlockType` together with
explicit width/height fields; sequential in-place loops become folds over
explicit coordinate lists in the same iteration order as the Rust loops.
Machine integers are `Nat` (all the quantities involved are non-negative
and no wrapping arithmetic occurs on the verified paths).
-/

/-- 2D grid position with `usize` coordinates (from `position.rs`). -/
structure Position where
  x : Nat
  y : Nat
deriving DecidableEq, Repr

/-- The four cardinal directions (from `position.rs` / `main.rs`). -/
inductive ShiftDirection where
  | Up
  | Right
  | Down
  | Left
deriving DecidableEq, Repr

section VarScope
variable {α : Type}
/-- Pointwise write of one grid cell (`self.grid[[x, y]] = v`). -/
def setCell (g : Nat → Nat → α) (px py : Nat) (v : α) : Nat → Nat → α :=
  fun x y => if x = px ∧ y = py then v else g x y

/-- Row-major coordinate enumeration, matching both the `for x { for y }`
loops and `ndarray`'s `indexed_iter` order on `(width, height)` arrays. -/
def coordList (w h : Nat) : List (Nat × Nat) :=
  (List.range w).bind fun x => (List.range h).map fun y => (x, y)

end VarScope
namespace Src
/-- Block type of the walker prototype map in `src/src/map.rs`. -/
inductive BlockType where
  | Empty
  | Hookable
  | Freeze
deriving DecidableEq, Repr

/-- Kernel application mode, `src/src/map.rs`. -/
inductive KernelType where
  | Outer
  | Inner
deriving DecidableEq, Repr

/-- `Kernel::get_kernel_center` from `src/src/map.rs`. -/
def get_kernel_center (size : Nat) : Nat :=
  (size - 1) / 2

/-- `Kernel::get_valid_radius_bounds` from `src/src/map.rs`:
`min_radius` is the squared distance from the center to the border,
`max_radius` the squared distance from the center to a corner. -/
def get_valid_radius_bounds (size : Nat) : Nat × Nat :=
  (((size - 1) / 2) ^ 2,
    get_kernel_center size * get_kernel_center size
      + get_kernel_center size * get_kernel_center size)

/-- `Kernel::is_valid_radius` from `src/src/map.rs`. -/
def is_valid_radius (size radius_sqr : Nat) : Bool :=
  decide ((get_valid_radius_bounds size).1 ≤ radius_sqr)
    && decide (radius_sqr ≤ (get_valid_radius_bounds size).2)

/-- `Kernel::get_kernel_vector` from `src/src/map.rs`: cell `(x, y)` of the
`size × size` mask is active iff its squared distance to the center is at
most `max_distance_sqr` (`usize::abs_diff` becomes `Nat.dist`). -/
def get_kernel_vector (size max_distance_sqr : Nat) : Nat → Nat → Bool :=
  fun x y =>
    decide (Nat.dist x (get_kernel_center size) ^ 2
      + Nat.dist y (get_kernel_center size) ^ 2 ≤ max_distance_sqr)

/-- The kernel stencil of `src/src/map.rs`: odd size, limiting offset,
derived squared-radius threshold and boolean mask. -/
structure Kernel where
  size : Nat
  limiting_offset : Position
  max_distance_sqr : Nat
  vector : Nat → Nat → Bool

/-- `Kernel::new` from `src/src/map.rs`. -/
def Kernel.new (size : Nat) (limiting_offset : Position) : Kernel :=
  { size := size
    limiting_offset := limiting_offset
    max_distance_sqr := limiting_offset.x ^ 2 + limiting_offset.y ^ 2
    vector := get_kernel_vector size (limiting_offset.x ^ 2 + limiting_offset.y ^ 2) }

/-! Specification-side notions for the radius-bounds claim, following the
spec's words: a mask "reaches the edge" when some border cell is active,
"reaches the corner" when some corner cell is active; a mask is
"non-trivial" when it is neither all-active nor center-only. -/

/-- A cell on the border of the `size × size` mask. -/
def onEdge (size x y : Nat) : Prop :=
  x = 0 ∨ y = 0 ∨ x = size - 1 ∨ y = size - 1

/-- A corner cell of the `size × size` mask. -/
def onCorner (size x y : Nat) : Prop :=
  (x = 0 ∨ x = size - 1) ∧ (y = 0 ∨ y = size - 1)

/-- The mask of squared radius `R` has an active cell on the border. -/
def reachesEdge (size R : Nat) : Prop :=
  ∃ x < size, ∃ y < size, onEdge size x y ∧ get_kernel_vector size R x y = true

/-- The mask of squared radius `R` has an active corner cell. -/
def reachesCorner (size R : Nat) : Prop :=
  ∃ x < size, ∃ y < size, onCorner size x y ∧ get_kernel_vector size R x y = true

/-- Every cell of the mask is active. -/
def allActive (size R : Nat) : Prop :=
  ∀ x < size, ∀ y < size, get_kernel_vector size R x y = true

/-- Only the center cell of the mask is active. -/
def centerOnly (size R : Nat) : Prop :=
  ∀ x < size, ∀ y < size,
    (get_kernel_vector size R x y = true
      ↔ x = get_kernel_center size ∧ y = get_kernel_center size)

/-- A mask that is neither all-active nor center-only. -/
def nonTrivialMask (size R : Nat) : Prop :=
  ¬ allActive size R ∧ ¬ centerOnly size R

instance (size x y : Nat) : Decidable (onEdge size x y) := by
  unfold onEdge; infer_instance

instance (size x y : Nat) : Decidable (onCorner size x y) := by
  unfold onCorner; infer_instance

instance (size R : Nat) : Decidable (reachesEdge size R) := by
  unfold reachesEdge; infer_instance

instance (size R : Nat) : Decidable (reachesCorner size R) := by
  unfold reachesCorner; infer_instance

instance (size R : Nat) : Decidable (allActive size R) := by
  unfold allActive; infer_instance

instance (size R : Nat) : Decidable (centerOnly size R) := by
  unfold centerOnly; infer_instance

instance (size R : Nat) : Decidable (nonTrivialMask size R) := by
  unfold nonTrivialMask; infer_instance

/-- The walker prototype map of `src/src/map.rs`: a `width × height` grid
of 3-variant blocks. -/
structure Map where
  grid : Nat → Nat → BlockType
  height : Nat
  width : Nat

/-- Modelled from the spec: the walker state of the missing `walker.rs`;
`Map::update` only reads its current kernel and position, so only those
two fields are embedded. -/
structure CuteWalker where
  pos : Position
  kernel : Kernel

/-- The per-cell write of `Map::update`: the inner kernel clears every
active cell to Empty, the outer kernel turns Hookable into Freeze and
keeps Freeze/Empty (the assignment is unconditional in the source). -/
def updateNewType (kernel_type : KernelType) (current_type : BlockType) : BlockType :=
  match kernel_type, current_type with
  | .Inner, _ => .Empty
  | .Outer, .Hookable => .Freeze
  | .Outer, .Freeze => .Freeze
  | .Outer, .Empty => .Empty

/-- One iteration of the `indexed_iter` loop in `Map::update`. -/
def updateStep (kernel_type : KernelType) (kernel : Kernel) (root_pos : Position)
    (g : Nat → Nat → BlockType) (idx : Nat × Nat) : Nat → Nat → BlockType :=
  if kernel.vector idx.1 idx.2 then
    setCell g (root_pos.x + idx.1) (root_pos.y + idx.2)
      (updateNewType kernel_type (g (root_pos.x + idx.1) (root_pos.y + idx.2)))
  else g

/-- `Map::update` from `src/src/map.rs`: the walker-driven kernel
application. On an out-of-bounds footprint it returns the error
`"kernel out of bounds"` without mutating the grid; otherwise it rewrites
every active kernel cell. The `&mut self` mutation is embedded by
returning the post-state next to the `Result`. -/
def Map.update (m : Map) (walker : CuteWalker) (kernel_type : KernelType) :
    Map × Option String :=
  let offset := walker.kernel.size / 2
  let extend := walker.kernel.size - offset
  if walker.pos.x < offset ∨ walker.pos.y < offset
      ∨ walker.pos.x + extend > m.width ∨ walker.pos.y + extend > m.height then
    (m, some "kernel out of bounds")
  else
    let root_pos : Position := ⟨walker.pos.x - offset, walker.pos.y - offset⟩
    ({ m with
        grid := (coordList walker.kernel.size walker.kernel.size).foldl
          (updateStep kernel_type walker.kernel root_pos) m.grid },
      none)

end Src
namespace Core
/-- Coarse gameplay category from `src/core/src/map.rs`. -/
inductive GameTile where
  | Hookable
  | Freeze
  | Empty
deriving DecidableEq, Repr

/-- The 8-variant block type of `src/core/src/map.rs`. -/
inductive BlockType where
  | Empty
  | EmptyReserved
  | Hookable
  | Freeze
  | Spawn
  | Start
  | Finish
  | Platform
deriving DecidableEq, Repr

/-- `BlockType::to_ingame_id`: external numeric tile id for map export. -/
def BlockType.to_ingame_id : BlockType → Nat
  | .Empty | .EmptyReserved => 0
  | .Hookable | .Platform => 1
  | .Freeze => 9
  | .Spawn => 192
  | .Start => 33
  | .Finish => 34

/-- `BlockType::to_game_tile`: block value to gameplay category. -/
def BlockType.to_game_tile : BlockType → GameTile
  | .Platform | .Hookable => .Hookable
  | .Empty | .EmptyReserved => .Empty
  | .Freeze => .Freeze
  | _ => .Empty

/-- `BlockType::is_solid`. -/
def BlockType.is_solid : BlockType → Bool
  | .Hookable | .Platform => true
  | _ => false

/-- `BlockType::is_freeze`. -/
def BlockType.is_freeze : BlockType → Bool
  | .Freeze => true
  | _ => false

/-- The six overwrite policies of `src/core/src/map.rs`. -/
inductive Overwrite where
  | Force
  | ReplaceSolidFreeze
  | ReplaceSolidOnly
  | ReplaceEmptyOnly
  | ReplaceNonSolid
  | ReplaceNonSolidForce
deriving DecidableEq, Repr

/-- `Overwrite::will_override`. -/
def Overwrite.will_override : Overwrite → BlockType → Bool
  | .Force, _ => true
  | .ReplaceSolidFreeze, .Hookable | .ReplaceSolidFreeze, .Freeze => true
  | .ReplaceSolidFreeze, _ => false
  | .ReplaceSolidOnly, .Hookable => true
  | .ReplaceSolidOnly, _ => false
  | .ReplaceEmptyOnly, .Empty => true
  | .ReplaceEmptyOnly, _ => false
  | .ReplaceNonSolid, .Freeze | .ReplaceNonSolid, .Empty => true
  | .ReplaceNonSolid, _ => false
  | .ReplaceNonSolidForce, .Freeze | .ReplaceNonSolidForce, .Empty
  | .ReplaceNonSolidForce, .EmptyReserved => true
  | .ReplaceNonSolidForce, _ => false

/-- Kernel stencil as consumed by `Map::apply_kernel` (only the `size` and
`vector` fields are read; `core/src/kernel.rs` itself is not among the
sources). -/
structure Kernel where
  size : Nat
  vector : Nat → Nat → Bool

/-- The core map of `src/core/src/map.rs`: the block grid plus the
dirty-chunk bitmap. `width`/`height` are the `ndarray` dimensions. -/
structure Map where
  grid : Nat → Nat → BlockType
  chunks_edited : Nat → Nat → Bool
  chunk_size : Nat
  width : Nat
  height : Nat

/-- The per-cell block rewrite of `apply_kernel`: current Hookable or
Freeze blocks become the target block, anything else is not written. -/
def killBlock (block_type v : BlockType) : BlockType :=
  match v with
  | .Hookable => block_type
  | .Freeze => block_type
  | v => v

/-- One iteration of the `indexed_iter` loop in `Map::apply_kernel`:
active kernel cells conditionally rewrite their block and unconditionally
mark their containing chunk dirty. -/
def applyKernelStep (block_type : BlockType) (root_pos : Position) (kernel : Kernel)
    (m : Map) (idx : Nat × Nat) : Map :=
  if kernel.vector idx.1 idx.2 then
    let ax := root_pos.x + idx.1
    let ay := root_pos.y + idx.2
    let m1 :=
      match m.grid ax ay with
      | .Hookable => { m with grid := setCell m.grid ax ay block_type }
      | .Freeze => { m with grid := setCell m.grid ax ay block_type }
      | _ => m
    { m1 with chunks_edited := setCell m1.chunks_edited (ax / m.chunk_size) (ay / m.chunk_size) true }
  else m

/-- `Map::apply_kernel` from `src/core/src/map.rs`: bounds-check the
kernel footprint around `pos`; on failure report `false` without touching
the map, otherwise run the kernel loop and report `true`. -/
def Map.apply_kernel (m : Map) (pos : Position) (kernel : Kernel)
    (block_type : BlockType) : Map × Bool :=
  let offset := kernel.size / 2
  let extend := kernel.size - offset
  if pos.x < offset ∨ pos.y < offset
      ∨ pos.x + extend > m.width ∨ pos.y + extend > m.height then
    (m, false)
  else
    let root_pos : Position := ⟨pos.x - offset, pos.y - offset⟩
    ((coordList kernel.size kernel.size).foldl
        (applyKernelStep block_type root_pos kernel) m,
      true)

end Core
/-- The bounds check of `apply_kernel` / `Map::update`: the kernel
footprint centered at `pos` would exceed the `w × h` grid. -/
def footprintExceeds (size w h : Nat) (pos : Position) : Prop :=
  pos.x < size / 2 ∨ pos.y < size / 2
    ∨ pos.x + (size - size / 2) > w ∨ pos.y + (size - size / 2) > h

instance (size w h : Nat) (pos : Position) : Decidable (footprintExceeds size w h pos) := by
  unfold footprintExceeds
  infer_instance

/-- A 3×3 all-Platform core map, for the C3 counterexample. -/
def platformMap : Core.Map :=
  { grid := fun _ _ => .Platform
    chunks_edited := fun _ _ => false
    chunk_size := 5
    width := 3
    height := 3 }

/-- A 1×1 all-active kernel. -/
def oneKernel : Core.Kernel :=
  { size := 1, vector := fun _ _ => true }

/-- A 3×3 all-Hookable core map. -/
def smallCoreMap : Core.Map :=
  { grid := fun _ _ => .Hookable
    chunks_edited := fun _ _ => false
    chunk_size := 5
    width := 3
    height := 3 }

/-- A 5×5 all-active kernel that does not fit a 3×3 map. -/
def bigKernel : Core.Kernel :=
  { size := 5, vector := fun _ _ => true }

/-- A 3×3 all-Hookable walker prototype map. -/
def smallSrcMap : Src.Map :=
  { grid := fun _ _ => .Hookable, height := 3, width := 3 }

/-- A walker at the origin carrying a 5×5 kernel. -/
def smallWalker : Src.CuteWalker :=
  { pos := ⟨0, 0⟩, kernel := Src.Kernel.new 5 ⟨1, 1⟩ }

namespace Gen
/-- The generator-side map (`crate::map` of `src/src/generator.rs`; its
map.rs is not among the sources — grid, width, height follow
`src/core/src/map.rs`, and `spawn` is the extra field the generator
reads). The block type is the 8-variant `Core.BlockType`. -/
structure Map where
  grid : Nat → Nat → Core.BlockType
  width : Nat
  height : Nat
  spawn : Position

/-- Does any cell of the 3×3 neighborhood of `(x, y)` (excluding the cell
itself) hold a Hookable block?  Mirrors the `dx`/`dy` loops of
`fix_edge_bugs`, including the `neighbor_x < width && neighbor_y < height`
checks; it is only reached for `x ≥ 1` and `y ≥ 1`, where the
`checked_sub` of the source cannot fail. -/
def hasHookableNeighbor (w h : Nat) (g : Nat → Nat → Core.BlockType) (x y : Nat) : Bool :=
  (List.range 3).any fun dx =>
    (List.range 3).any fun dy =>
      if dx = 1 ∧ dy = 1 then false
      else
        decide (x + dx - 1 < w) && decide (y + dy - 1 < h)
          && decide (g (x + dx - 1) (y + dy - 1) = Core.BlockType.Hookable)

/-- State threaded through the `fix_edge_bugs` scan: the grid mutated in
place, the returned `edge_bug` mask, and whether the scan completed
(`ok = false` models the early `Err("fix edge bug out of bounds")`). -/
structure FixResult where
  grid : Nat → Nat → Core.BlockType
  edge_bug : Nat → Nat → Bool
  ok : Bool

/-- The cell scan of `fix_edge_bugs`, in row-major order.  An Empty cell
at `x = 0` or `y = 0` hits the `checked_sub(1)` error on its first
neighbor offset and aborts the whole pass (keeping the writes made so
far); any other Empty cell with a Hookable neighbor is flagged in the
mask and turned to Freeze. -/
def fixLoop (w h : Nat) :
    (Nat → Nat → Core.BlockType) → (Nat → Nat → Bool) → List (Nat × Nat) → FixResult
  | g, eb, [] => ⟨g, eb, true⟩
  | g, eb, (x, y) :: rest =>
    if g x y = Core.BlockType.Empty then
      if x = 0 ∨ y = 0 then ⟨g, eb, false⟩
      else if hasHookableNeighbor w h g x y then
        fixLoop w h (setCell g x y Core.BlockType.Freeze) (setCell eb x y true) rest
      else fixLoop w h g eb rest
    else fixLoop w h g eb rest

/-- `fix_edge_bugs` from `src/src/post_processing.rs` (identical to
`Generator::fix_edge_bugs` in `src/src/generator.rs`). -/
def fix_edge_bugs (m : Map) : FixResult :=
  fixLoop m.width m.height m.grid (fun _ _ => false) (coordList m.width m.height)

/-- Modelled from the spec: `Position::shift_in_direction` from the
missing `position.rs` — move one cell in the given direction, failing
(`Err`) when the move would leave the map grid. -/
def shiftInDirection (p : Position) (d : ShiftDirection) (m : Map) : Option Position :=
  match d with
  | .Up => if p.y = 0 then none else some ⟨p.x, p.y - 1⟩
  | .Right => if p.x + 1 < m.width then some ⟨p.x + 1, p.y⟩ else none
  | .Down => if p.y + 1 < m.height then some ⟨p.x, p.y + 1⟩ else none
  | .Left => if p.x = 0 then none else some ⟨p.x - 1, p.y⟩

/-- The stage transition of `check_corner_skip` (the
`match (stage, curr_block_type)` of the source); `none` is the
"invalid sequence, abort" arm. -/
def stageStep (stage : Nat) (b : Core.BlockType) : Option Nat :=
  match stage, b with
  | 0, Core.BlockType.Freeze => some 1
  | 1, Core.BlockType.Freeze => some 1
  | 1, Core.BlockType.Hookable => some 2
  | 2, Core.BlockType.Hookable => some 2
  | 2, Core.BlockType.Freeze => some 3
  | 3, Core.BlockType.Freeze => some 3
  | 3, Core.BlockType.Empty => some 4
  | _, _ => none

/-- The `while` loop of `check_corner_skip`.  The source counts
`skip_length` up to `tunnel_bounds.1`; here `fuel` is the remaining
iteration budget (`tunnel_bounds.1 − skip_length`), so the loop condition
`skip_length < tunnel_bounds.1` becomes `fuel > 0`. -/
def ccsLoop (m : Map) (shift : ShiftDirection) (minB : Nat) :
    Nat → Position → Nat → Nat → Option (Position × Nat)
  | fuel, pos, stage, skipLen =>
    if stage = 4 then
      if minB < skipLen then some (pos, skipLen) else none
    else
      match fuel with
      | 0 => none
      | fuel' + 1 =>
        match shiftInDirection pos shift m with
        | none => none
        | some pos' =>
          match stageStep stage (m.grid pos'.x pos'.y) with
          | none => none
          | some stage' => ccsLoop m shift minB fuel' pos' stage' (skipLen + 1)

/-- `check_corner_skip` from `src/src/post_processing.rs` (identical to
`Generator::check_corner_skip`): walk from `init_pos` along `shift`
through the 4-stage automaton; accept when stage 4 is reached with
`tunnel_bounds.0 < skip_length ≤ tunnel_bounds.1`. -/
def check_corner_skip (m : Map) (init_pos : Position) (shift : ShiftDirection)
    (tunnel_bounds : Nat × Nat) : Option (Position × Nat) :=
  ccsLoop m shift tunnel_bounds.1 tunnel_bounds.2 init_pos 0 0

/-- `i`-fold shift from `p` (the position visited at step `i`). -/
def shiftN (m : Map) (d : ShiftDirection) (p : Position) : Nat → Option Position
  | 0 => some p
  | n + 1 =>
    match shiftN m d p n with
    | none => none
    | some q => shiftInDirection q d m

/-- Step `i` of the walk from `p` lands on a cell holding block `b`. -/
def blockAt (m : Map) (d : ShiftDirection) (p : Position) (i : Nat)
    (b : Core.BlockType) : Prop :=
  ∃ q, shiftN m d p i = some q ∧ m.grid q.x q.y = b

/-- Steps `lo..hi` (inclusive) of the walk all land on block `b`. -/
def blocksRange (m : Map) (d : ShiftDirection) (p : Position) (lo hi : Nat)
    (b : Core.BlockType) : Prop :=
  ∀ i, lo ≤ i → i ≤ hi → blockAt m d p i b

/-- The claim's acceptance sequence as written (spec side): one or more
Freeze steps, then one or more Hookable steps, then one or more Freeze
steps, then an Empty step, with the total step count within the
*inclusive* range `[minB, maxB]`. -/
def skipSpecIncl (m : Map) (p : Position) (d : ShiftDirection) (minB maxB : Nat)
    (e : Position) (n : Nat) : Prop :=
  ∃ a b c, 1 ≤ a ∧ 1 ≤ b ∧ 1 ≤ c ∧ n = a + b + c + 1
    ∧ minB ≤ n ∧ n ≤ maxB
    ∧ blocksRange m d p 1 a Core.BlockType.Freeze
    ∧ blocksRange m d p (a + 1) (a + b) Core.BlockType.Hookable
    ∧ blocksRange m d p (a + b + 1) (a + b + c) Core.BlockType.Freeze
    ∧ shiftN m d p n = some e
    ∧ m.grid e.x e.y = Core.BlockType.Empty

/-- The acceptance sequence with the strict lower length bound the code
actually enforces (`skip_length > tunnel_bounds.0`). -/
def skipSpec (m : Map) (p : Position) (d : ShiftDirection) (minB maxB : Nat)
    (e : Position) (n : Nat) : Prop :=
  ∃ a b c, 1 ≤ a ∧ 1 ≤ b ∧ 1 ≤ c ∧ n = a + b + c + 1
    ∧ minB < n ∧ n ≤ maxB
    ∧ blocksRange m d p 1 a Core.BlockType.Freeze
    ∧ blocksRange m d p (a + 1) (a + b) Core.BlockType.Hookable
    ∧ blocksRange m d p (a + b + 1) (a + b + c) Core.BlockType.Freeze
    ∧ shiftN m d p n = some e
    ∧ m.grid e.x e.y = Core.BlockType.Empty

/-- What the remaining walk must look like when the loop is entered at
step `k` in a given stage, for it to accept at step `n`. -/
def sufficesFrom (m : Map) (d : ShiftDirection) (p : Position) :
    Nat → Nat → Nat → Prop
  | 0, k, n => ∃ a b c, 1 ≤ a ∧ 1 ≤ b ∧ 1 ≤ c ∧ n = k + a + b + c + 1
      ∧ blocksRange m d p (k + 1) (k + a) Core.BlockType.Freeze
      ∧ blocksRange m d p (k + a + 1) (k + a + b) Core.BlockType.Hookable
      ∧ blocksRange m d p (k + a + b + 1) (k + a + b + c) Core.BlockType.Freeze
      ∧ blockAt m d p n Core.BlockType.Empty
  | 1, k, n => ∃ a b c, 1 ≤ b ∧ 1 ≤ c ∧ n = k + a + b + c + 1
      ∧ blocksRange m d p (k + 1) (k + a) Core.BlockType.Freeze
      ∧ blocksRange m d p (k + a + 1) (k + a + b) Core.BlockType.Hookable
      ∧ blocksRange m d p (k + a + b + 1) (k + a + b + c) Core.BlockType.Freeze
      ∧ blockAt m d p n Core.BlockType.Empty
  | 2, k, n => ∃ b c, 1 ≤ c ∧ n = k + b + c + 1
      ∧ blocksRange m d p (k + 1) (k + b) Core.BlockType.Hookable
      ∧ blocksRange m d p (k + b + 1) (k + b + c) Core.BlockType.Freeze
      ∧ blockAt m d p n Core.BlockType.Empty
  | 3, k, n => ∃ c, n = k + c + 1
      ∧ blocksRange m d p (k + 1) (k + c) Core.BlockType.Freeze
      ∧ blockAt m d p n Core.BlockType.Empty
  | 4, k, n => n = k
  | _ + 5, _, _ => False

end Gen
section VarScope
variable {m : Map} {d : ShiftDirection} {p : Position}
variable {m : Map} {d : ShiftDirection} {p : Position}
/-- A 6×1 strip holding the minimal Freeze–Hookable–Freeze–Empty
sequence to the right of the origin. -/
def skipMap : Gen.Map :=
  { grid := fun x _ =>
      if x = 1 then Core.BlockType.Freeze
      else if x = 2 then Core.BlockType.Hookable
      else if x = 3 then Core.BlockType.Freeze
      else Core.BlockType.Empty
    width := 6
    height := 1
    spawn := ⟨0, 0⟩ }

/-- A 2×2 map whose only Hookable block is at `(1,1)`; the border cell
`(0,0)` is Empty. -/
def borderEmptyMap : Gen.Map :=
  { grid := fun x y => if x = 1 ∧ y = 1 then Core.BlockType.Hookable else Core.BlockType.Empty
    width := 2
    height := 2
    spawn := ⟨0, 0⟩ }

/-- Modelled from the spec: `Position::distance_squared` from the missing
`position.rs` — squared Euclidean distance between grid positions. -/
def Position.distance_squared (p q : Position) : Nat :=
  Nat.dist p.x q.x ^ 2 + Nat.dist p.y q.y ^ 2

/-- Modelled from the spec: `Position::shifted_by` from the missing
`position.rs` — offset a position by signed deltas, failing when a
coordinate would become negative (the callers unwrap this). -/
def Position.shifted_by (p : Position) (dx dy : Int) : Option Position :=
  if 0 ≤ (p.x : Int) + dx ∧ 0 ≤ (p.y : Int) + dy then
    some ⟨((p.x : Int) + dx).toNat, ((p.y : Int) + dy).toNat⟩
  else none

end VarScope
namespace Gen
section VarScope
variable {m : Map} {d : ShiftDirection} {p : Position}
variable {m : Map} {d : ShiftDirection} {p : Position}
/-- `Map::pos_in_bounds` (from `src/core/src/map.rs`, shared by the
generator map). -/
def Map.pos_in_bounds (m : Map) (p : Position) : Bool :=
  decide (p.x < m.width) && decide (p.y < m.height)

/-- `Map::set_area` (following `src/core/src/map.rs`, without the
chunk bitmap the generator map does not carry): overwrite every cell of
the inclusive rectangle whose current block the policy permits; a
rectangle with an out-of-bounds corner is a no-op. -/
def Map.set_area (m : Map) (top_left bot_right : Position) (value : Core.BlockType)
    (overide : Core.Overwrite) : Map :=
  if m.pos_in_bounds top_left && m.pos_in_bounds bot_right then
    let newGrid :=
      (coordList (bot_right.x + 1 - top_left.x) (bot_right.y + 1 - top_left.y)).foldl
        (fun g p =>
          if overide.will_override (g (top_left.x + p.1) (top_left.y + p.2)) then
            setCell g (top_left.x + p.1) (top_left.y + p.2) value
          else g)
        m.grid
    { m with grid := newGrid }
  else m

/-- `Map::set_area_border` (from `src/core/src/map.rs`): outline the
rectangle with four 1-cell strips. -/
def Map.set_area_border (m : Map) (top_left bot_right : Position)
    (value : Core.BlockType) (overwrite : Core.Overwrite) : Map :=
  let top_right := Position.mk bot_right.x top_left.y
  let bot_left := Position.mk top_left.x bot_right.y
  ((((m.set_area top_left top_right value overwrite).set_area
      top_right bot_right value overwrite).set_area
      top_left bot_left value overwrite).set_area
      bot_left bot_right value overwrite)

/-- Modelled from the spec: `Map::generate_room` from the missing map.rs —
"carve a fixed small bordered rectangle of reserved tiles at the
position (tagged Start/Finish), unconditionally overwriting existing
content in that footprint"; fails when the footprint leaves the grid. -/
def Map.generate_room (m : Map) (pos : Position) (room_size : Nat)
    (platform_margin : Nat) (zone_type : Option Core.BlockType) : Except String Map :=
  if room_size ≤ pos.x ∧ room_size ≤ pos.y
      ∧ pos.x + room_size < m.width ∧ pos.y + room_size < m.height then
    let tl := Position.mk (pos.x - room_size) (pos.y - room_size)
    let br := Position.mk (pos.x + room_size) (pos.y + room_size)
    let m1 := m.set_area tl br Core.BlockType.EmptyReserved Core.Overwrite.Force
    match zone_type with
    | some t => Except.ok (m1.set_area_border tl br t Core.Overwrite.Force)
    | none => Except.ok m1
  else Except.error "room out of bounds"

/-- The eight 5-cell Freeze templates of `find_corners` (window offsets
relative to the 5×5 window's top-left corner), each with the direction of
the candidate it detects, in source order R1, R2, L1, L2, U1, U2, D1, D2. -/
def corner_shapes : List (List (Nat × Nat) × ShiftDirection) :=
  [([(2, 3), (3, 0), (3, 1), (3, 2), (3, 3)], ShiftDirection.Right),
   ([(2, 1), (3, 1), (3, 2), (3, 3), (3, 4)], ShiftDirection.Right),
   ([(2, 3), (1, 0), (1, 1), (1, 2), (1, 3)], ShiftDirection.Left),
   ([(2, 1), (1, 1), (1, 2), (1, 3), (1, 4)], ShiftDirection.Left),
   ([(3, 2), (0, 1), (1, 1), (2, 1), (3, 1)], ShiftDirection.Up),
   ([(1, 2), (1, 1), (2, 1), (3, 1), (4, 1)], ShiftDirection.Up),
   ([(3, 2), (0, 3), (1, 3), (2, 3), (3, 3)], ShiftDirection.Down),
   ([(1, 2), (1, 3), (2, 3), (3, 3), (4, 3)], ShiftDirection.Down)]

/-- `find_corners` from `src/src/post_processing.rs` (identical to
`Generator::find_corners`): scan every interior cell with a centered 5×5
window; an Empty center whose window matches one of the eight Freeze
templates becomes a candidate with that template's direction.  The
source's `Result` is always `Ok`, so a plain list is returned. -/
def find_corners (m : Map) : List (Position × ShiftDirection) :=
  (List.range' 2 (m.width - 4)).bind fun wx =>
    (List.range' 2 (m.height - 4)).bind fun wy =>
      if m.grid wx wy = Core.BlockType.Empty then
        corner_shapes.filterMap fun sd =>
          if sd.1.all fun off =>
              m.grid (wx - 2 + off.1) (wy - 2 + off.2) = Core.BlockType.Freeze then
            some (Position.mk wx wy, sd.2)
          else none
      else []

/-- A skip record `(start, end, direction, length)`. -/
abbrev Skip : Type := Position × Position × ShiftDirection × Nat

/-- Default skip record (for list indexing with `getD`). -/
def dfltSkip : Skip := (⟨0, 0⟩, ⟨0, 0⟩, ShiftDirection.Up, 0)

/-- Stable insertion into a length-sorted skip list. -/
def insertByLen (s : Skip) : List Skip → List Skip
  | [] => [s]
  | t :: ts => if s.2.2.2 ≤ t.2.2.2 then s :: t :: ts else t :: insertByLen s ts

/-- `skips.sort_unstable_by(|s1, s2| usize::cmp(&s1.3, &s2.3))`: sort the
skip records ascending by length (a deterministic comparison sort; the
source's unstable sort fixes no tie order either). -/
def sortByLen : List Skip → List Skip
  | [] => []
  | s :: ss => insertByLen s (sortByLen ss)

/-- The conflict test of the skip selection loop, exactly as in the
source: note that `end.distance_squared(other_start)` appears twice and
`end`–`other_end` is never compared. -/
def skipConflict (min_spacing_sqr : Nat) (s t : Skip) : Bool :=
  decide (Position.distance_squared s.1 t.1 < min_spacing_sqr)
    || decide (Position.distance_squared s.1 t.2.1 < min_spacing_sqr)
    || decide (Position.distance_squared s.2.1 t.1 < min_spacing_sqr)
    || decide (Position.distance_squared s.2.1 t.1 < min_spacing_sqr)

/-- The greedy invalidation loop of `get_all_valid_skips` /
`generate_all_skips`: walk the length-sorted records; each still-valid
record invalidates every later conflicting record. -/
def select_skips (skips : List Skip) (min_spacing_sqr : Nat) : List Bool :=
  (List.range skips.length).foldl
    (fun valid i =>
      if valid.getD i false then
        (List.range' (i + 1) (skips.length - (i + 1))).foldl
          (fun valid j =>
            if skipConflict min_spacing_sqr (skips.getD i dfltSkip) (skips.getD j dfltSkip) then
              valid.set j false
            else valid)
          valid
      else valid)
    (List.replicate skips.length true)

/-- `generate_skip`: clear the skip's bounding rectangle to Empty (only
overwriting Hookable/Freeze) and re-add a 1-cell Freeze buffer on the two
sides perpendicular to its direction (only overwriting Hookable).  The
source unwraps `shifted_by`, so a failing shift is a panic (`none`). -/
def generate_skip (m : Map) (start_pos end_pos : Position) (shift : ShiftDirection) :
    Option Map :=
  let top_left := Position.mk (min start_pos.x end_pos.x) (min start_pos.y end_pos.y)
  let bot_right := Position.mk (max start_pos.x end_pos.x) (max start_pos.y end_pos.y)
  let m1 := m.set_area top_left bot_right Core.BlockType.Empty Core.Overwrite.ReplaceSolidFreeze
  match shift with
  | ShiftDirection.Left | ShiftDirection.Right =>
    match top_left.shifted_by 0 (-1), bot_right.shifted_by 0 (-1),
        top_left.shifted_by 0 1, bot_right.shifted_by 0 1 with
    | some tl1, some br1, some tl2, some br2 =>
      some ((m1.set_area tl1 br1 Core.BlockType.Freeze Core.Overwrite.ReplaceSolidOnly).set_area
        tl2 br2 Core.BlockType.Freeze Core.Overwrite.ReplaceSolidOnly)
    | _, _, _, _ => none
  | ShiftDirection.Up | ShiftDirection.Down =>
    match top_left.shifted_by (-1) 0, bot_right.shifted_by (-1) 0,
        top_left.shifted_by 1 0, bot_right.shifted_by 1 0 with
    | some tl1, some br1, some tl2, some br2 =>
      some ((m1.set_area tl1 br1 Core.BlockType.Freeze Core.Overwrite.ReplaceSolidOnly).set_area
        tl2 br2 Core.BlockType.Freeze Core.Overwrite.ReplaceSolidOnly)
    | _, _, _, _ => none

/-- `Generator::get_all_valid_skips`: corner detection, skip checking,
length sort, greedy conflict invalidation, then materialization of the
surviving skips in order. -/
def get_all_valid_skips (m : Map) (length_bounds : Nat × Nat)
    (min_spacing_sqr : Nat) : Option Map :=
  let corner_candidates := find_corners m
  let skips₀ := corner_candidates.filterMap fun cand =>
    match check_corner_skip m cand.1 cand.2 length_bounds with
    | some en => some ((cand.1, en.1, cand.2, en.2) : Skip)
    | none => none
  let skips := sortByLen skips₀
  let valid := select_skips skips min_spacing_sqr
  (List.range skips.length).foldl
    (fun acc i =>
      match acc with
      | none => none
      | some mm =>
        if valid.getD i false then
          let s := skips.getD i dfltSkip
          generate_skip mm s.1 s.2.1 s.2.2.1
        else some mm)
    (some m)

/-- Modelled from the spec: the Euclidean distance transform of the `dt`
crate — the squared distance from `(x, y)` to the nearest non-Empty cell,
`none` when the grid holds no non-Empty cell. -/
def minDistSqr (m : Map) (x y : Nat) : Option Nat :=
  (coordList m.width m.height).foldl
    (fun acc p =>
      if m.grid p.1 p.2 ≠ Core.BlockType.Empty then
        match acc with
        | none => some (Nat.dist x p.1 ^ 2 + Nat.dist y p.2 ^ 2)
        | some dcur => some (min dcur (Nat.dist x p.1 ^ 2 + Nat.dist y p.2 ^ 2))
      else acc)
    none

/-- `√dsq > t`, carried out exactly on squared values. -/
def gtOfSqr (dsq t : Nat) : Bool :=
  decide (t * t < dsq)

/-- `√dsq > t + √2`, carried out exactly on squared values:
`d > t + √2  ↔  d² > t² + 2 ∧ (d² − (t² + 2))² > 8t²`. -/
def gtPlusSqrtTwoOfSqr (dsq t : Nat) : Bool :=
  decide (t * t + 2 < dsq) && decide (8 * (t * t) < (dsq - (t * t + 2)) ^ 2)

/-- `Generator::fill_area` / `fill_open_areas`, with the `f32` distance
transform modelled exactly on squared distances (see `minDistSqr`):
Empty cells farther than `max_distance + √2` from the nearest non-Empty
cell become Hookable, Empty cells farther than `max_distance` become
Freeze, all other cells are untouched. -/
def fill_area (m : Map) (max_distance : Nat) : Map :=
  { m with grid := fun x y =>
      if m.grid x y = Core.BlockType.Empty ∧ x < m.width ∧ y < m.height then
        match minDistSqr m x y with
        | none => Core.BlockType.Hookable
        | some dsq =>
          if gtPlusSqrtTwoOfSqr dsq max_distance then Core.BlockType.Hookable
          else if gtOfSqr dsq max_distance then Core.BlockType.Freeze
          else m.grid x y
      else m.grid x y }

/-- Modelled from the spec: the seeded `Random` source of the missing
`random.rs` — a deterministic 64-bit linear congruential generator,
threaded explicitly through every stochastic call (never ambient). -/
structure Random where
  state : Nat

/-- One generator step: new state and a pseudo-random output. -/
def Random.next (r : Random) : Nat × Random :=
  let s := (r.state * 6364136223846793005 + 1442695040888963407) % 2 ^ 64
  (s / 2 ^ 33, ⟨s⟩)

/-- Modelled from the spec: construct the generator from the 64-bit seed. -/
def Random.new (seed : Nat) : Random :=
  ⟨seed % 2 ^ 64⟩

/-- Modelled from the spec: probability gate (probabilities are carried
as thousandths, standing in for the source's `f32`). -/
def Random.with_probability (r : Random) (prob_mille : Nat) : Bool × Random :=
  let vr := r.next
  (vr.1 % 1000 < prob_mille, vr.2)

/-- Index of the weighted slot hit by `t` (cumulative walk). -/
def pickIndex : List Nat → Nat → Nat
  | [], _ => 0
  | w :: ws, t => if t < w then 0 else 1 + pickIndex ws (t - w)

/-- Modelled from the spec: weighted index choice over a weight list. -/
def Random.weighted_index (r : Random) (weights : List Nat) : Nat × Random :=
  let total := weights.foldl (· + ·) 0
  let vr := r.next
  if total = 0 then (0, vr.2) else (pickIndex weights (vr.1 % total), vr.2)

/-- `Kernel::get_unique_radii_sqr` from `src/src/map.rs`: enumerate, over
one quadrant, every distinct squared radius at or above the minimum. -/
def get_unique_radii_sqr (size : Nat) : List Nat :=
  let center := Src.get_kernel_center size
  let max_offset := size - center - 1
  let min_radius_sqr := (Src.get_valid_radius_bounds size).1
  (List.range (max_offset + 1)).foldl
    (fun acc x =>
      (List.range' x (max_offset + 1 - x)).foldl
        (fun acc y =>
          if min_radius_sqr ≤ x * x + y * y ∧ ¬acc.contains (x * x + y * y) then
            acc ++ [x * x + y * y]
          else acc)
        acc)
    []

/-- Modelled from the spec: the kernel constructor of the missing
`kernel.rs`, building a mask from a size and a squared-radius threshold
(the generator's `Kernel::new(5, 0.0)` corresponds to threshold 0). -/
def mkKernel (size radius_sqr : Nat) : Src.Kernel :=
  { size := size
    limiting_offset := ⟨0, 0⟩
    max_distance_sqr := radius_sqr
    vector := Src.get_kernel_vector size radius_sqr }

/-- `GenerationConfig` from `src/src/config.rs`, extended with the
generator-era fields the spec describes (`waypoint_reached_dist`,
`platform_distance_bounds`, `max_distance`, `skip_length_bounds` and
`skip_min_spacing_sqr` are not in the checked-in config.rs and are
modelled from the spec; `f32` probabilities are thousandths and the `f32`
`max_distance` is a natural number). -/
structure GenerationConfig where
  inner_size_bounds : Nat × Nat
  outer_size_bounds : Nat × Nat
  inner_rad_mut_prob : Nat
  inner_size_mut_prob : Nat
  outer_rad_mut_prob : Nat
  outer_size_mut_prob : Nat
  step_weights : List Nat
  waypoints : List Position
  waypoint_reached_dist : Nat
  platform_distance_bounds : Nat × Nat
  max_distance : Nat
  skip_length_bounds : Nat × Nat
  skip_min_spacing_sqr : Nat

/-- Modelled from the spec: per-step configuration validation — the core
"validates configuration (non-empty waypoints, normalized probability
sets) before each step"; probability normalization holds by construction
in this embedding, so the waypoint check remains. -/
def GenerationConfig.validate (c : GenerationConfig) : Except String Unit :=
  if c.waypoints = [] then Except.error "config validation failed: no waypoints"
  else Except.ok ()

/-- The default preset of `src/src/config.rs` (`Default for
GenerationConfig`), with the spec-modelled fields given fixed values. -/
def defaultConfig : GenerationConfig :=
  { inner_size_bounds := (3, 3)
    outer_size_bounds := (1, 5)
    inner_rad_mut_prob := 250
    inner_size_mut_prob := 500
    outer_rad_mut_prob := 250
    outer_size_mut_prob := 500
    step_weights := [20, 11, 10, 9]
    waypoints := [⟨250, 250⟩, ⟨250, 150⟩, ⟨50, 150⟩, ⟨50, 50⟩, ⟨250, 50⟩]
    waypoint_reached_dist := 4
    platform_distance_bounds := (200, 300)
    max_distance := 3
    skip_length_bounds := (4, 15)
    skip_min_spacing_sqr := 25 }

/-- Modelled from the spec: the walker state of the missing `walker.rs` —
position, inner/outer kernels, waypoint index, finished flag, and the
step bookkeeping for periodic platform insertion. -/
structure CuteWalker where
  pos : Position
  inner_kernel : Src.Kernel
  outer_kernel : Src.Kernel
  goal_index : Nat
  finished : Bool
  steps_since_platform : Nat

/-- Modelled from the spec: goal check — `none` when no waypoint remains,
otherwise whether the squared distance to the active waypoint is within
the configured threshold. -/
def CuteWalker.is_goal_reached (w : CuteWalker) (cfg : GenerationConfig) : Option Bool :=
  match cfg.waypoints.get? w.goal_index with
  | none => none
  | some wp =>
    some (decide (Position.distance_squared w.pos wp
      ≤ cfg.waypoint_reached_dist * cfg.waypoint_reached_dist))

/-- Modelled from the spec: advance to the next waypoint; when none
remain, transition to Finished (false → true exactly once). -/
def CuteWalker.next_waypoint (w : CuteWalker) (cfg : GenerationConfig) : CuteWalker :=
  if w.goal_index + 1 < cfg.waypoints.length then { w with goal_index := w.goal_index + 1 }
  else { w with finished := true }

/-- Modelled from the spec: independently, with configured probabilities,
mutate the inner and outer kernel's size and radius, drawing new discrete
values from the size bounds and `get_unique_radii_sqr`. -/
def CuteWalker.mutate_kernel (w : CuteWalker) (cfg : GenerationConfig) (r : Random) :
    CuteWalker × Random :=
  let g1 := r.with_probability cfg.inner_size_mut_prob
  let v1 := g1.2.next
  let innerSize :=
    if g1.1 then cfg.inner_size_bounds.1
      + v1.1 % (cfg.inner_size_bounds.2 + 1 - cfg.inner_size_bounds.1)
    else w.inner_kernel.size
  let g2 := v1.2.with_probability cfg.inner_rad_mut_prob
  let v2 := g2.2.next
  let innerRadii := get_unique_radii_sqr innerSize
  let innerRad :=
    if g2.1 then innerRadii.getD (v2.1 % max innerRadii.length 1) w.inner_kernel.max_distance_sqr
    else w.inner_kernel.max_distance_sqr
  let g3 := v2.2.with_probability cfg.outer_size_mut_prob
  let v3 := g3.2.next
  let outerSize :=
    if g3.1 then cfg.outer_size_bounds.1
      + v3.1 % (cfg.outer_size_bounds.2 + 1 - cfg.outer_size_bounds.1)
    else w.outer_kernel.size
  let g4 := v3.2.with_probability cfg.outer_rad_mut_prob
  let v4 := g4.2.next
  let outerRadii := get_unique_radii_sqr outerSize
  let outerRad :=
    if g4.1 then outerRadii.getD (v4.1 % max outerRadii.length 1) w.outer_kernel.max_distance_sqr
    else w.outer_kernel.max_distance_sqr
  ({ w with inner_kernel := mkKernel innerSize innerRad
            outer_kernel := mkKernel outerSize outerRad }, v4.2)

/-- Modelled from the spec (§4.3 step 4, matching `Map::update` of
`src/src/map.rs` lifted to the generator's 8-variant map): the inner
kernel clears active Hookable/Freeze cells to Empty, the outer kernel
turns active Hookable cells to Freeze; an out-of-bounds footprint fails
without mutation. -/
def walkerUpdate (m : Map) (pos : Position) (k : Src.Kernel) (kt : Src.KernelType) :
    Option Map :=
  let offset := k.size / 2
  let extend := k.size - offset
  if pos.x < offset ∨ pos.y < offset
      ∨ pos.x + extend > m.width ∨ pos.y + extend > m.height then none
  else
    let newGrid :=
      (coordList k.size k.size).foldl
        (fun g p =>
          if k.vector p.1 p.2 then
            setCell g (pos.x - offset + p.1) (pos.y - offset + p.2)
              (match kt, g (pos.x - offset + p.1) (pos.y - offset + p.2) with
                | Src.KernelType.Inner, Core.BlockType.Hookable => Core.BlockType.Empty
                | Src.KernelType.Inner, Core.BlockType.Freeze => Core.BlockType.Empty
                | Src.KernelType.Inner, v => v
                | Src.KernelType.Outer, Core.BlockType.Hookable => Core.BlockType.Freeze
                | Src.KernelType.Outer, v => v)
          else g)
        m.grid
    some { m with grid := newGrid }

/-- Stable insertion into a score-sorted direction ranking. -/
def insertByScore (s : Nat × ShiftDirection) :
    List (Nat × ShiftDirection) → List (Nat × ShiftDirection)
  | [] => [s]
  | t :: ts => if s.1 ≤ t.1 then s :: t :: ts else t :: insertByScore s ts

/-- Stable sort of scored directions (most-improving first). -/
def sortByScore : List (Nat × ShiftDirection) → List (Nat × ShiftDirection)
  | [] => []
  | s :: ss => insertByScore s (sortByScore ss)

/-- Modelled from the spec (§4.3 step 3 and 4): rank the four cardinal
directions by the squared distance the move leaves to the active waypoint
(impossible moves rank last), pick one via the configured step weights,
move, then carve with the inner and outer kernels.  Fails on invalid
configuration (no active waypoint) or a geometrically impossible step. -/
def CuteWalker.probabilistic_step (w : CuteWalker) (m : Map) (cfg : GenerationConfig)
    (r : Random) : Except String (Map × CuteWalker × Random) :=
  match cfg.waypoints.get? w.goal_index with
  | none => Except.error "probabilistic step failed: no active waypoint"
  | some goal =>
    let scored := [ShiftDirection.Up, ShiftDirection.Right,
        ShiftDirection.Down, ShiftDirection.Left].map fun dd =>
      match shiftInDirection w.pos dd m with
      | some q => (Position.distance_squared q goal, dd)
      | none => (Position.distance_squared w.pos goal + 1000000, dd)
    let ranked := sortByScore scored
    let ir := r.weighted_index cfg.step_weights
    let chosen := (ranked.getD (min ir.1 (ranked.length - 1)) (0, ShiftDirection.Up)).2
    match shiftInDirection w.pos chosen m with
    | none => Except.error "probabilistic step failed: step out of bounds"
    | some newpos =>
      let w1 := { w with pos := newpos }
      match walkerUpdate m w1.pos w1.inner_kernel Src.KernelType.Inner with
      | none => Except.error "kernel out of bounds"
      | some m1 =>
        match walkerUpdate m1 w1.pos w1.outer_kernel Src.KernelType.Outer with
        | none => Except.error "kernel out of bounds"
        | some m2 => Except.ok (m2, w1, ir.2)

/-- Modelled from the spec (§4.3 step 5): once the steps travelled since
the last platform reach the configured upper bound, insert a Platform
block at the current position and reset the counter. -/
def CuteWalker.check_platform (w : CuteWalker) (m : Map) (lo hi : Nat) :
    Except String (Map × CuteWalker) :=
  if hi ≤ w.steps_since_platform then
    Except.ok ({ m with grid := setCell m.grid w.pos.x w.pos.y Core.BlockType.Platform },
      { w with steps_since_platform := 0 })
  else Except.ok (m, { w with steps_since_platform := w.steps_since_platform + 1 })

/-- The generator session state (`Generator` of `src/src/generator.rs`);
the string-keyed debug layers become fixed named boolean grids
(`edge_bugs` from the generator, `blobs_debug` from the blob pass). -/
structure Generator where
  walker : CuteWalker
  map : Map
  rnd : Random
  edge_bugs : Nat → Nat → Bool
  blobs_debug : Nat → Nat → Bool

/-- `Generator::new`: the fixed 300×300 all-Hookable map with spawn
`(50, 250)`, initial 5/7 kernels, and the seeded random source. -/
def Generator.new (cfg : GenerationConfig) (seed : Nat) : Generator :=
  { walker :=
      { pos := ⟨50, 250⟩
        inner_kernel := mkKernel 5 0
        outer_kernel := mkKernel 7 0
        goal_index := 0
        finished := false
        steps_since_platform := 0 }
    map :=
      { grid := fun _ _ => Core.BlockType.Hookable
        width := 300
        height := 300
        spawn := ⟨50, 250⟩ }
    rnd := Random.new seed
    edge_bugs := fun _ _ => false
    blobs_debug := fun _ _ => false }

/-- `Generator::step`: goal check and waypoint advance, then (when not
finished) config validation, kernel mutation, the probabilistic step and
the platform check; every failure propagates as a typed error. -/
def Generator.step (g : Generator) (cfg : GenerationConfig) : Except String Generator :=
  let g :=
    if g.walker.is_goal_reached cfg = some true then
      { g with walker := g.walker.next_waypoint cfg }
    else g
  if g.walker.finished then Except.ok g
  else
    match cfg.validate with
    | Except.error e => Except.error e
    | Except.ok _ =>
      let wr := g.walker.mutate_kernel cfg g.rnd
      match wr.1.probabilistic_step g.map cfg wr.2 with
      | Except.error e => Except.error e
      | Except.ok mwr =>
        match mwr.2.1.check_platform mwr.1 cfg.platform_distance_bounds.1
            cfg.platform_distance_bounds.2 with
        | Except.error e => Except.error e
        | Except.ok mw =>
          Except.ok { g with walker := mw.2, map := mw.1, rnd := mwr.2.2 }

/-- `Generator::post_processing`: edge-bug fix, the Start/Finish rooms,
the distance fill and the skip pass, in source order.  The source unwraps
every failure with `expect`/`unwrap`; `none` models that panic. -/
def Generator.post_processing (g : Generator) (cfg : GenerationConfig) : Option Generator :=
  let r := fix_edge_bugs g.map
  match r.ok with
  | false => none
  | true =>
    let m1 := { g.map with grid := r.grid }
    match m1.generate_room m1.spawn 4 3 (some Core.BlockType.Start) with
    | Except.error _ => none
    | Except.ok m2 =>
      match m2.generate_room g.walker.pos 4 3 (some Core.BlockType.Finish) with
      | Except.error _ => none
      | Except.ok m3 =>
        let m4 := fill_area m3 cfg.max_distance
        match get_all_valid_skips m4 cfg.skip_length_bounds cfg.skip_min_spacing_sqr with
        | none => none
        | some m5 => some { g with map := m5, edge_bugs := r.edge_bug }

/-- The stepping loop of `Generator::generate_map` (`for _ in 0..max_steps
{ if finished break; step? }`). -/
def runSteps : Nat → Generator → GenerationConfig → Except String Generator
  | 0, g, _ => Except.ok g
  | n + 1, g, cfg =>
    if g.walker.finished then Except.ok g
    else
      match g.step cfg with
      | Except.error e => Except.error e
      | Except.ok g' => runSteps n g' cfg

/-- Outcome of a full `generate_map` run: a typed stepping error, a
process panic inside post-processing, or the finished map. -/
inductive RunResult where
  | err (e : String)
  | panic
  | ok (m : Map)

/-- `Generator::generate_map`: build the initial state from the seed and
config, run at most `max_steps` walker steps, then post-process. -/
def generate_map (max_steps seed : Nat) (cfg : GenerationConfig) : RunResult :=
  match runSteps max_steps (Generator.new cfg seed) cfg with
  | Except.error e => RunResult.err e
  | Except.ok g =>
    match g.post_processing cfg with
    | none => RunResult.panic
    | some g' => RunResult.ok g'.map

/-- The 3×3 window scan of one flood-fill iteration in
`remove_freeze_blobs`: walk the window offsets in `indexed_iter` order,
skip the center, break (reporting "connected") at the first solid block,
and collect the unmarked Freeze neighbors to queue, in visit order. -/
def blobScanWindow (g : Nat → Nat → Core.BlockType) (marked : Nat → Nat → Bool)
    (pos : Position) : List (Nat × Nat) → Bool × List Position
  | [] => (true, [])
  | (wx, wy) :: rest =>
    if wx = 1 ∧ wy = 1 then blobScanWindow g marked pos rest
    else if (g (pos.x + wx - 1) (pos.y + wy - 1)).is_solid then (false, [])
    else
      let res := blobScanWindow g marked pos rest
      if marked (pos.x + wx - 1) (pos.y + wy - 1) then res
      else if (g (pos.x + wx - 1) (pos.y + wy - 1)).is_freeze then
        (res.1, Position.mk (pos.x + wx - 1) (pos.y + wy - 1) :: res.2)
      else res

/-- The explicit work-list loop of `remove_freeze_blobs` (`while
!visit_next.is_empty()`), with an explicit fuel budget standing in for
the loop's termination: pop a position, mark it, scan its window, queue
the collected neighbors (last collected on top, matching `Vec::push` /
`Vec::pop`), and record the visit.  Returns the marks, the visited cells
and whether the component stayed unconnected. -/
def blobLoop (grid : Nat → Nat → Core.BlockType) :
    Nat → (Nat → Nat → Bool) → List Position → List Position → Bool →
      (Nat → Nat → Bool) × List Position × Bool
  | 0, marked, _, visited, unconnected => (marked, visited, unconnected)
  | _ + 1, marked, [], visited, unconnected => (marked, visited, unconnected)
  | fuel + 1, marked, pos :: stack, visited, unconnected =>
    let marked' := setCell marked pos.x pos.y true
    let scan := blobScanWindow grid marked' pos (coordList 3 3)
    blobLoop grid fuel marked' (scan.2.reverse ++ stack) (visited ++ [pos])
      (unconnected && scan.1)

/-- One cell of the outer scan of `remove_freeze_blobs`, threading the
`marked` array and the generator: unmarked Freeze cells start a
flood-fill, and components that never touched a solid block are flagged
in the `blobs_debug` layer. -/
def rfbStep (fuel : Nat) (st : (Nat → Nat → Bool) × Generator) (p : Nat × Nat) :
    (Nat → Nat → Bool) × Generator :=
  if st.1 p.1 p.2 then st
  else if st.2.map.grid p.1 p.2 ≠ Core.BlockType.Freeze then
    (setCell st.1 p.1 p.2 true, st.2)
  else
    let res := blobLoop st.2.map.grid fuel st.1 [Position.mk p.1 p.2] [] true
    if res.2.2 then
      (res.1,
        { st.2 with blobs_debug :=
            res.2.1.foldl (fun dbg q => setCell dbg q.x q.y true) st.2.blobs_debug })
    else (res.1, st.2)

/-- The interior coordinates `window_size..(width − window_size)` ×
`window_size..(height − window_size)` with `window_size = 1`. -/
def interiorCoords (w h : Nat) : List (Nat × Nat) :=
  (List.range' 1 (w - 2)).bind fun x => (List.range' 1 (h - 2)).map fun y => (x, y)

/-- `remove_freeze_blobs` from `src/src/post_processing.rs`:
`min_freeze_size` is accepted but never used for filtering, exactly as in
the source; isolated Freeze components are only flagged in the
`blobs_debug` layer. -/
def remove_freeze_blobs (fuel : Nat) (min_freeze_size : Nat) (g : Generator) : Generator :=
  ((interiorCoords g.map.width g.map.height).foldl (rfbStep fuel)
    (fun _ _ => false, g)).2

end VarScope
end Gen
section VarScope
variable {m : Map} {d : ShiftDirection} {p : Position}
variable {m : Map} {d : ShiftDirection} {p : Position}
/-- A 3×3 all-Empty generator state whose border cell `(0,0)` makes the
edge-bug fix fail. -/
def smallGenerator : Gen.Generator :=
  { walker :=
      { pos := ⟨1, 1⟩
        inner_kernel := Gen.mkKernel 1 0
        outer_kernel := Gen.mkKernel 1 0
        goal_index := 0
        finished := false
        steps_since_platform := 0 }
    map := { grid := fun _ _ => Core.BlockType.Empty, width := 3, height := 3, spawn := ⟨1, 1⟩ }
    rnd := ⟨0⟩
    edge_bugs := fun _ _ => false
    blobs_debug := fun _ _ => false }

/-- The default configuration with its waypoint list emptied. -/
def emptyWaypointConfig : Gen.GenerationConfig :=
  { Gen.defaultConfig with waypoints := [] }

/-- A horizontal skip of length 5. -/
def skipA : Gen.Skip := (⟨0, 0⟩, ⟨5, 0⟩, ShiftDirection.Right, 5)

/-- A vertical skip of length 12 whose end cell is adjacent to `skipA`'s
end cell. -/
def skipB : Gen.Skip := (⟨6, 13⟩, ⟨6, 1⟩, ShiftDirection.Up, 12)

end VarScope

section VarScope
variable {α : Type}
theorem setCell_same (g : Nat → Nat → α) (px py : Nat) (v : α) :
    setCell g px py v px py = v := by
  simp [setCell]

theorem setCell_other (g : Nat → Nat → α) (px py : Nat) (v : α) (x y : Nat)
    (h : ¬(x = px ∧ y = py)) : setCell g px py v x y = g x y := by
  simp only [setCell]
  rw [if_neg h]

theorem mem_coordList (w h : Nat) (p : Nat × Nat) :
    p ∈ coordList w h ↔ p.1 < w ∧ p.2 < h := by
  cases p with
  | mk a b =>
    simp only [coordList, List.mem_bind, List.mem_map, List.mem_range, Prod.mk.injEq]
    constructor
    · rintro ⟨x, hx, y, hy, rfl, rfl⟩
      exact ⟨hx, hy⟩
    · rintro ⟨ha, hb⟩
      exact ⟨a, ha, b, hb, rfl, rfl⟩

/-- A sequential loop of independent single-cell writes, described
pointwise: if the step writes cell `tgt p` with `f` of its old value
whenever `cond p` holds, and `f` is idempotent, then the fold rewrites
exactly the targeted cells once. -/
theorem foldl_write_pointwise
    (step : (Nat → Nat → α) → (Nat × Nat) → (Nat → Nat → α))
    (cond : Nat × Nat → Bool) (tgt : Nat × Nat → Nat × Nat) (f : α → α)
    (hstep : ∀ g p x y, step g p x y
      = if cond p = true ∧ (x, y) = tgt p then f (g x y) else g x y)
    (hf : ∀ v, f (f v) = f v)
    (L : List (Nat × Nat)) (g : Nat → Nat → α) (x y : Nat) :
    L.foldl step g x y
      = if ∃ p ∈ L, cond p = true ∧ (x, y) = tgt p then f (g x y) else g x y := by
  induction L generalizing g with
  | nil => simp
  | cons p L ih =>
    simp only [List.foldl_cons]
    rw [ih]
    have hmem : (∃ q ∈ p :: L, cond q = true ∧ (x, y) = tgt q)
        ↔ (cond p = true ∧ (x, y) = tgt p) ∨ ∃ q ∈ L, cond q = true ∧ (x, y) = tgt q := by
      simp only [List.mem_cons]
      constructor
      · rintro ⟨q, hq | hq, hcq⟩
        · subst hq; exact Or.inl hcq
        · exact Or.inr ⟨q, hq, hcq⟩
      · rintro (h | ⟨q, hq, hcq⟩)
        · exact ⟨p, Or.inl rfl, h⟩
        · exact ⟨q, Or.inr hq, hcq⟩
    rw [if_congr hmem rfl rfl]
    by_cases hp : cond p = true ∧ (x, y) = tgt p
    · have hstep' : step g p x y = f (g x y) := by rw [hstep, if_pos hp]
      by_cases hL : ∃ q ∈ L, cond q = true ∧ (x, y) = tgt q
      · rw [if_pos hL, if_pos (Or.inl hp), hstep', hf]
      · rw [if_neg hL, if_pos (Or.inl hp), hstep']
    · have hstep' : step g p x y = g x y := by rw [hstep, if_neg hp]
      by_cases hL : ∃ q ∈ L, cond q = true ∧ (x, y) = tgt q
      · rw [if_pos hL, if_pos (Or.inr hL), hstep']
      · rw [if_neg hL, hstep', if_neg ?_]
        rintro (h | h)
        · exact hp h
        · exact hL h

end VarScope
namespace Src
lemma get_kernel_vector_true_iff (size R x y : Nat) :
    get_kernel_vector size R x y = true
      ↔ Nat.dist x (get_kernel_center size) ^ 2
          + Nat.dist y (get_kernel_center size) ^ 2 ≤ R := by
  simp [get_kernel_vector]

lemma dist_pow_two (a b : Nat) : Nat.dist a b ^ 2 = Nat.dist a b * Nat.dist a b := by
  ring

end Src
/-- C8 counterexample: for odd size `3` the returned bounds are `(1, 2)`,
and at the top radius `R = 2` — inside the claimed inclusive range — the
generated mask is all-active, hence not non-trivial. -/
theorem valid_radius_bounds_counterexample :
    Src.get_valid_radius_bounds 3 = (1, 2) ∧ Src.allActive 3 2
      ∧ ¬ Src.nonTrivialMask 3 2 := by
  refine ⟨by decide, by decide, ?_⟩
  intro h
  exact h.1 (by decide)

/-- C8 (amended): for every odd size `S`, `get_valid_radius_bounds S`
returns the pair (least squared radius whose mask reaches the edge, least
squared radius whose mask reaches the corner), and every squared radius in
the half-open range `[min, max)` produces a non-trivial mask (at `R = max`
the mask is all-active, so the upper endpoint is excluded). -/
theorem get_valid_radius_bounds_spec (S : Nat) (hodd : S % 2 = 1) :
    (Src.reachesEdge S (Src.get_valid_radius_bounds S).1
        ∧ ∀ R < (Src.get_valid_radius_bounds S).1, ¬ Src.reachesEdge S R)
      ∧ (Src.reachesCorner S (Src.get_valid_radius_bounds S).2
        ∧ ∀ R < (Src.get_valid_radius_bounds S).2, ¬ Src.reachesCorner S R)
      ∧ (∀ R, (Src.get_valid_radius_bounds S).1 ≤ R →
          R < (Src.get_valid_radius_bounds S).2 → Src.nonTrivialMask S R) := by
  set c := Src.get_kernel_center S with hc
  have hS : S = 2 * c + 1 := by
    simp only [hc, Src.get_kernel_center]; omega
  have hcval : (S - 1) / 2 = c := by rw [hc]; rfl
  have hbounds : Src.get_valid_radius_bounds S = (c * c, c * c + c * c) := by
    simp only [Src.get_valid_radius_bounds, ← hc, pow_two, hcval]
  have hdistc : ∀ x : Nat, x < S → Nat.dist x c ≤ c := by
    intro x hx
    simp only [Nat.dist]; omega
  have hdist0 : Nat.dist 0 c = c := by simp [Nat.dist]
  rw [hbounds]
  refine ⟨⟨?_, ?_⟩, ⟨?_, ?_⟩, ?_⟩
  · -- the mask of radius c² reaches the edge at cell (0, c)
    refine ⟨0, by omega, c, by omega, Or.inl rfl, ?_⟩
    rw [Src.get_kernel_vector_true_iff, ← hc, hdist0, Nat.dist_self]
    simp only [pow_two]
    omega
  · -- no smaller radius reaches the edge
    rintro R hR ⟨x, hx, y, hy, hedge, hact⟩
    have hR' : R < c * c := hR
    rw [Src.get_kernel_vector_true_iff, ← hc] at hact
    simp only [pow_two] at hact
    have hxy : Nat.dist x c = c ∨ Nat.dist y c = c := by
      rcases hedge with h | h | h | h <;>
        [left; right; left; right] <;>
        (subst h; simp only [Nat.dist]; omega)
    rcases hxy with h | h <;> rw [h] at hact <;> omega
  · -- the mask of radius 2c² reaches the corner at (0, 0)
    refine ⟨0, by omega, 0, by omega, ⟨Or.inl rfl, Or.inl rfl⟩, ?_⟩
    rw [Src.get_kernel_vector_true_iff, ← hc, hdist0]
    simp only [pow_two]
    omega
  · -- no smaller radius reaches a corner
    rintro R hR ⟨x, hx, y, hy, ⟨hcx, hcy⟩, hact⟩
    have hR' : R < c * c + c * c := hR
    rw [Src.get_kernel_vector_true_iff, ← hc] at hact
    have hdx : Nat.dist x c = c := by
      rcases hcx with h | h <;> (subst h; simp only [Nat.dist]; omega)
    have hdy : Nat.dist y c = c := by
      rcases hcy with h | h <;> (subst h; simp only [Nat.dist]; omega)
    rw [hdx, hdy] at hact
    simp only [pow_two] at hact
    omega
  · -- every radius strictly between the bounds gives a non-trivial mask
    intro R hRlo hRhi
    have hRlo' : c * c ≤ R := hRlo
    have hRhi' : R < c * c + c * c := hRhi
    have hccpos : 0 < c * c := by omega
    have hcpos : 0 < c := by
      rcases Nat.eq_zero_or_pos c with h | h
      · rw [h] at hccpos; omega
      · exact h
    constructor
    · -- not all-active: the corner (0,0) is inactive
      intro hall
      have hcorner := hall 0 (by omega) 0 (by omega)
      rw [Src.get_kernel_vector_true_iff, ← hc, hdist0] at hcorner
      simp only [pow_two] at hcorner
      omega
    · -- not center-only: the edge cell (0, c) is active but not the center
      intro honly
      have hedgeact : Src.get_kernel_vector S R 0 c = true := by
        rw [Src.get_kernel_vector_true_iff, ← hc, hdist0, Nat.dist_self]
        simp only [pow_two]
        omega
      have hiff := (honly 0 (by omega) c (by omega)).mp hedgeact
      rw [← hc] at hiff
      omega

/-- Witness for the amended C8 theorem at the concrete odd size `S = 3`. -/
theorem get_valid_radius_bounds_spec_witness :
    3 % 2 = 1
      ∧ ((Src.reachesEdge 3 (Src.get_valid_radius_bounds 3).1
          ∧ ∀ R < (Src.get_valid_radius_bounds 3).1, ¬ Src.reachesEdge 3 R)
        ∧ (Src.reachesCorner 3 (Src.get_valid_radius_bounds 3).2
          ∧ ∀ R < (Src.get_valid_radius_bounds 3).2, ¬ Src.reachesCorner 3 R)
        ∧ (∀ R, (Src.get_valid_radius_bounds 3).1 ≤ R →
            R < (Src.get_valid_radius_bounds 3).2 → Src.nonTrivialMask 3 R)) :=
  ⟨by decide, get_valid_radius_bounds_spec 3 (by decide)⟩

/-- C9: for every odd size `S ≥ 3` and every squared radius `R` within the
valid radius bounds, the generated `S × S` mask has the center cell active
and is invariant under horizontal reflection, vertical reflection and
transposition. -/
theorem get_kernel_vector_symmetric (S R : Nat) (hodd : S % 2 = 1) (h3 : 3 ≤ S)
    (hRlo : (Src.get_valid_radius_bounds S).1 ≤ R)
    (hRhi : R ≤ (Src.get_valid_radius_bounds S).2) :
    Src.get_kernel_vector S R (Src.get_kernel_center S) (Src.get_kernel_center S) = true
      ∧ ∀ x < S, ∀ y < S,
        Src.get_kernel_vector S R (S - 1 - x) y = Src.get_kernel_vector S R x y
          ∧ Src.get_kernel_vector S R x (S - 1 - y) = Src.get_kernel_vector S R x y
          ∧ Src.get_kernel_vector S R y x = Src.get_kernel_vector S R x y := by
  set c := Src.get_kernel_center S with hc
  have hS : S = 2 * c + 1 := by
    simp only [hc, Src.get_kernel_center]; omega
  have hrefl : ∀ x : Nat, x < S → Nat.dist (S - 1 - x) c = Nat.dist x c := by
    intro x hx
    simp only [Nat.dist]; omega
  refine ⟨?_, ?_⟩
  · rw [Src.get_kernel_vector_true_iff, ← hc, Nat.dist_self]
    simp
  · intro x hx y hy
    refine ⟨?_, ?_, ?_⟩
    · simp only [Src.get_kernel_vector, ← hc]
      rw [hrefl x hx]
    · simp only [Src.get_kernel_vector, ← hc]
      rw [hrefl y hy]
    · simp only [Src.get_kernel_vector, ← hc]
      rw [Nat.add_comm]

/-- Witness for C9 at the concrete size `S = 3`, radius `R = 1`. -/
theorem get_kernel_vector_symmetric_witness :
    3 % 2 = 1 ∧ 3 ≤ 3 ∧ (Src.get_valid_radius_bounds 3).1 ≤ 1
      ∧ 1 ≤ (Src.get_valid_radius_bounds 3).2
      ∧ (Src.get_kernel_vector 3 1 (Src.get_kernel_center 3) (Src.get_kernel_center 3) = true
        ∧ ∀ x < 3, ∀ y < 3,
          Src.get_kernel_vector 3 1 (3 - 1 - x) y = Src.get_kernel_vector 3 1 x y
            ∧ Src.get_kernel_vector 3 1 x (3 - 1 - y) = Src.get_kernel_vector 3 1 x y
            ∧ Src.get_kernel_vector 3 1 y x = Src.get_kernel_vector 3 1 x y) :=
  ⟨by decide, by decide, by decide, by decide,
    get_kernel_vector_symmetric 3 1 (by decide) (by decide) (by decide) (by decide)⟩

namespace Core
theorem killBlock_idem (t v : BlockType) : killBlock t (killBlock t v) = killBlock t v := by
  cases v <;> cases t <;> rfl

/-- Grid projection of one `apply_kernel` loop iteration, pointwise. -/
theorem applyKernelStep_grid (t : BlockType) (root : Position) (k : Kernel)
    (m : Map) (p : Nat × Nat) (x y : Nat) :
    (applyKernelStep t root k m p).grid x y
      = if k.vector p.1 p.2 = true ∧ (x, y) = (root.x + p.1, root.y + p.2) then
          killBlock t (m.grid x y)
        else m.grid x y := by
  by_cases hact : k.vector p.1 p.2 = true
  · by_cases hxy : (x, y) = (root.x + p.1, root.y + p.2)
    · have hx : x = root.x + p.1 := congrArg Prod.fst hxy
      have hy : y = root.y + p.2 := congrArg Prod.snd hxy
      subst hx; subst hy
      rw [if_pos ⟨hact, rfl⟩]
      simp only [applyKernelStep, if_pos hact]
      cases hcur : m.grid (root.x + p.1) (root.y + p.2) <;>
        simp [setCell, killBlock, hcur]
    · have hx : ¬(x = root.x + p.1 ∧ y = root.y + p.2) := by
        intro ⟨h1, h2⟩; exact hxy (by rw [h1, h2])
      rw [if_neg (by intro ⟨_, h⟩; exact hxy h)]
      simp only [applyKernelStep, if_pos hact]
      cases hcur : m.grid (root.x + p.1) (root.y + p.2) <;>
        simp [setCell, hcur, hx]
  · rw [if_neg (by intro ⟨h, _⟩; exact hact h)]
    simp only [applyKernelStep, if_neg hact]

/-- The grid-only form of one `apply_kernel` loop iteration, pointwise. -/
theorem applyKernelGStep_pointwise (t : BlockType) (root : Position) (k : Kernel)
    (g : Nat → Nat → BlockType) (p : Nat × Nat) (a b : Nat) :
    (if k.vector p.1 p.2 = true then
        setCell g (root.x + p.1) (root.y + p.2)
          (killBlock t (g (root.x + p.1) (root.y + p.2)))
      else g) a b
      = if k.vector p.1 p.2 = true ∧ (a, b) = (root.x + p.1, root.y + p.2) then
          killBlock t (g a b)
        else g a b := by
  by_cases hact : k.vector p.1 p.2 = true
  · rw [if_pos hact]
    by_cases hab : (a, b) = (root.x + p.1, root.y + p.2)
    · have h1 : a = root.x + p.1 := congrArg Prod.fst hab
      have h2 : b = root.y + p.2 := congrArg Prod.snd hab
      subst h1; subst h2
      rw [if_pos ⟨hact, rfl⟩]
      simp [setCell]
    · rw [if_neg fun h => hab h.2]
      simp only [setCell]
      rw [if_neg fun h => hab (by rw [h.1, h.2])]
  · rw [if_neg hact, if_neg fun h => hact h.1]

/-- The whole `apply_kernel` loop, described pointwise on the grid. -/
theorem applyKernel_foldl_grid (t : BlockType) (root : Position) (k : Kernel)
    (L : List (Nat × Nat)) (m : Map) (x y : Nat) :
    ((L.foldl (applyKernelStep t root k) m).grid) x y
      = if ∃ p ∈ L, k.vector p.1 p.2 = true ∧ (x, y) = (root.x + p.1, root.y + p.2) then
          killBlock t (m.grid x y)
        else m.grid x y := by
  have hproj : ∀ (m : Map) (L : List (Nat × Nat)),
      (L.foldl (applyKernelStep t root k) m).grid
        = L.foldl (fun g p => if k.vector p.1 p.2 = true then
            setCell g (root.x + p.1) (root.y + p.2)
              (killBlock t (g (root.x + p.1) (root.y + p.2)))
          else g) m.grid := by
    intro m L
    induction L generalizing m with
    | nil => rfl
    | cons p L ih =>
      simp only [List.foldl_cons]
      rw [ih]
      congr 1
      funext a b
      show (applyKernelStep t root k m p).grid a b
        = (if k.vector p.1 p.2 = true then
            setCell m.grid (root.x + p.1) (root.y + p.2)
              (killBlock t (m.grid (root.x + p.1) (root.y + p.2)))
          else m.grid) a b
      rw [applyKernelStep_grid t root k m p a b,
        applyKernelGStep_pointwise t root k m.grid p a b]
  rw [hproj]
  exact foldl_write_pointwise _ (fun p => k.vector p.1 p.2)
    (fun p => (root.x + p.1, root.y + p.2)) (killBlock t)
    (fun g p a b => applyKernelGStep_pointwise t root k g p a b)
    (killBlock_idem t) L m.grid x y

end Core
/-- C3 counterexample: a Platform block sits on an active cell of an
in-bounds kernel application; Platform is in gameplay category Hookable,
so the claim requires it to be replaced by the target block (Empty), but
`apply_kernel` leaves it untouched. -/
theorem apply_kernel_platform_counterexample :
    Core.BlockType.to_game_tile .Platform = Core.GameTile.Hookable
      ∧ oneKernel.vector 0 0 = true
      ∧ (platformMap.apply_kernel ⟨1, 1⟩ oneKernel .Empty).2 = true
      ∧ (platformMap.apply_kernel ⟨1, 1⟩ oneKernel .Empty).1.grid 1 1 = Core.BlockType.Platform
      ∧ Core.BlockType.Platform ≠ Core.BlockType.Empty := by
  refine ⟨by decide, by decide, by decide, by decide, by decide⟩

/-- C3 (amended): for every in-bounds application of `apply_kernel`,
every active kernel cell whose current block is the Hookable or Freeze
*block variant* is replaced with the target block value, and every other
cell in the kernel footprint is left untouched — in particular a Platform
block, although its gameplay category is Hookable, is not replaced. -/
theorem apply_kernel_in_bounds_spec (m : Core.Map) (pos : Position)
    (k : Core.Kernel) (t : Core.BlockType)
    (hx : k.size / 2 ≤ pos.x) (hy : k.size / 2 ≤ pos.y)
    (hw : pos.x + (k.size - k.size / 2) ≤ m.width)
    (hh : pos.y + (k.size - k.size / 2) ≤ m.height) :
    (m.apply_kernel pos k t).2 = true
      ∧ ∀ kx < k.size, ∀ ky < k.size,
        ((k.vector kx ky = true
            ∧ (m.grid (pos.x - k.size / 2 + kx) (pos.y - k.size / 2 + ky) = .Hookable
              ∨ m.grid (pos.x - k.size / 2 + kx) (pos.y - k.size / 2 + ky) = .Freeze))
          → (m.apply_kernel pos k t).1.grid
              (pos.x - k.size / 2 + kx) (pos.y - k.size / 2 + ky) = t)
        ∧ (¬(k.vector kx ky = true
            ∧ (m.grid (pos.x - k.size / 2 + kx) (pos.y - k.size / 2 + ky) = .Hookable
              ∨ m.grid (pos.x - k.size / 2 + kx) (pos.y - k.size / 2 + ky) = .Freeze))
          → (m.apply_kernel pos k t).1.grid
              (pos.x - k.size / 2 + kx) (pos.y - k.size / 2 + ky)
            = m.grid (pos.x - k.size / 2 + kx) (pos.y - k.size / 2 + ky)) := by
  have hcond : ¬(pos.x < k.size / 2 ∨ pos.y < k.size / 2
      ∨ pos.x + (k.size - k.size / 2) > m.width
      ∨ pos.y + (k.size - k.size / 2) > m.height) := by
    push_neg
    exact ⟨hx, hy, hw, hh⟩
  have happ : m.apply_kernel pos k t
      = ((coordList k.size k.size).foldl
          (Core.applyKernelStep t ⟨pos.x - k.size / 2, pos.y - k.size / 2⟩ k) m, true) := by
    simp only [Core.Map.apply_kernel]
    rw [if_neg hcond]
  refine ⟨by rw [happ], ?_⟩
  intro kx hkx ky hky
  rw [happ]
  rw [Core.applyKernel_foldl_grid]
  have hiff : (∃ p ∈ coordList k.size k.size, k.vector p.1 p.2 = true
      ∧ ((pos.x - k.size / 2 + kx, pos.y - k.size / 2 + ky)
        = ((Position.mk (pos.x - k.size / 2) (pos.y - k.size / 2)).x + p.1,
           (Position.mk (pos.x - k.size / 2) (pos.y - k.size / 2)).y + p.2)))
      ↔ k.vector kx ky = true := by
    constructor
    · rintro ⟨p, hp, hact, heq⟩
      have h1 : pos.x - k.size / 2 + kx = pos.x - k.size / 2 + p.1 :=
        congrArg Prod.fst heq
      have h2 : pos.y - k.size / 2 + ky = pos.y - k.size / 2 + p.2 :=
        congrArg Prod.snd heq
      have hp1 : p.1 = kx := by omega
      have hp2 : p.2 = ky := by omega
      rw [hp1, hp2] at hact
      exact hact
    · intro hact
      exact ⟨(kx, ky), (mem_coordList _ _ _).mpr ⟨hkx, hky⟩, hact, rfl⟩
  rw [if_congr hiff rfl rfl]
  constructor
  · rintro ⟨hact, hHF⟩
    rw [if_pos hact]
    rcases hHF with h | h <;> rw [h] <;> rfl
  · intro hn
    by_cases hact : k.vector kx ky = true
    · rw [if_pos hact]
      have hHF : ¬(m.grid (pos.x - k.size / 2 + kx) (pos.y - k.size / 2 + ky) = .Hookable
          ∨ m.grid (pos.x - k.size / 2 + kx) (pos.y - k.size / 2 + ky) = .Freeze) :=
        fun h => hn ⟨hact, h⟩
      cases hcur : m.grid (pos.x - k.size / 2 + kx) (pos.y - k.size / 2 + ky) with
      | Hookable => exact absurd (Or.inl hcur) hHF
      | Freeze => exact absurd (Or.inr hcur) hHF
      | _ => rfl
    · rw [if_neg hact]

/-- Witness for the amended C3 theorem: a concrete in-bounds application. -/
theorem apply_kernel_in_bounds_spec_witness :
    oneKernel.size / 2 ≤ 1 ∧ 1 + (oneKernel.size - oneKernel.size / 2) ≤ smallCoreMap.width
      ∧ ((smallCoreMap.apply_kernel ⟨1, 1⟩ oneKernel .Empty).2 = true
        ∧ ∀ kx < oneKernel.size, ∀ ky < oneKernel.size,
          ((oneKernel.vector kx ky = true
              ∧ (smallCoreMap.grid (1 - oneKernel.size / 2 + kx) (1 - oneKernel.size / 2 + ky) = .Hookable
                ∨ smallCoreMap.grid (1 - oneKernel.size / 2 + kx) (1 - oneKernel.size / 2 + ky) = .Freeze))
            → (smallCoreMap.apply_kernel ⟨1, 1⟩ oneKernel .Empty).1.grid
                (1 - oneKernel.size / 2 + kx) (1 - oneKernel.size / 2 + ky) = .Empty)
          ∧ (¬(oneKernel.vector kx ky = true
              ∧ (smallCoreMap.grid (1 - oneKernel.size / 2 + kx) (1 - oneKernel.size / 2 + ky) = .Hookable
                ∨ smallCoreMap.grid (1 - oneKernel.size / 2 + kx) (1 - oneKernel.size / 2 + ky) = .Freeze))
            → (smallCoreMap.apply_kernel ⟨1, 1⟩ oneKernel .Empty).1.grid
                (1 - oneKernel.size / 2 + kx) (1 - oneKernel.size / 2 + ky)
              = smallCoreMap.grid (1 - oneKernel.size / 2 + kx) (1 - oneKernel.size / 2 + ky))) :=
  ⟨by decide, by decide,
    apply_kernel_in_bounds_spec smallCoreMap ⟨1, 1⟩ oneKernel .Empty
      (by decide) (by decide) (by decide) (by decide)⟩

/-- C4: an out-of-bounds kernel footprint makes both `Map::apply_kernel`
(core) and the walker-driven `Map::update` (prototype) perform zero
mutation — the returned map is the input map — and report failure. -/
theorem out_of_bounds_rejected (m : Core.Map) (pos : Position)
    (k : Core.Kernel) (t : Core.BlockType)
    (hex : footprintExceeds k.size m.width m.height pos)
    (m2 : Src.Map) (w : Src.CuteWalker) (kt : Src.KernelType)
    (hex2 : footprintExceeds w.kernel.size m2.width m2.height w.pos) :
    m.apply_kernel pos k t = (m, false)
      ∧ m2.update w kt = (m2, some "kernel out of bounds") := by
  have hex' : pos.x < k.size / 2 ∨ pos.y < k.size / 2
      ∨ pos.x + (k.size - k.size / 2) > m.width
      ∨ pos.y + (k.size - k.size / 2) > m.height := hex
  have hex2' : w.pos.x < w.kernel.size / 2 ∨ w.pos.y < w.kernel.size / 2
      ∨ w.pos.x + (w.kernel.size - w.kernel.size / 2) > m2.width
      ∨ w.pos.y + (w.kernel.size - w.kernel.size / 2) > m2.height := hex2
  constructor
  · simp only [Core.Map.apply_kernel]
    rw [if_pos hex']
  · simp only [Src.Map.update]
    rw [if_pos hex2']

/-- Witness for C4 at a concrete out-of-bounds application. -/
theorem out_of_bounds_rejected_witness :
    footprintExceeds bigKernel.size smallCoreMap.width smallCoreMap.height ⟨0, 0⟩
      ∧ footprintExceeds smallWalker.kernel.size smallSrcMap.width smallSrcMap.height
          smallWalker.pos
      ∧ (smallCoreMap.apply_kernel ⟨0, 0⟩ bigKernel .Empty = (smallCoreMap, false)
        ∧ smallSrcMap.update smallWalker .Inner
          = (smallSrcMap, some "kernel out of bounds")) :=
  ⟨by decide, by decide,
    out_of_bounds_rejected smallCoreMap ⟨0, 0⟩ bigKernel .Empty (by decide)
      smallSrcMap smallWalker .Inner (by decide)⟩

namespace Gen
/-- Unfolding equation for one scan step. -/
theorem fixLoop_cons (w h x y : Nat) (rest : List (Nat × Nat))
    (g : Nat → Nat → Core.BlockType) (eb : Nat → Nat → Bool) :
    fixLoop w h g eb ((x, y) :: rest)
      = if g x y = Core.BlockType.Empty then
          if x = 0 ∨ y = 0 then ⟨g, eb, false⟩
          else if hasHookableNeighbor w h g x y then
            fixLoop w h (setCell g x y Core.BlockType.Freeze) (setCell eb x y true) rest
          else fixLoop w h g eb rest
        else fixLoop w h g eb rest := rfl

/-- Frame property of the scan: each cell either keeps its old block or
was an Empty cell rewritten to Freeze. -/
theorem fixLoop_frame (w h : Nat) (L : List (Nat × Nat))
    (g : Nat → Nat → Core.BlockType) (eb : Nat → Nat → Bool) (x y : Nat) :
    (fixLoop w h g eb L).grid x y = g x y
      ∨ (g x y = Core.BlockType.Empty
        ∧ (fixLoop w h g eb L).grid x y = Core.BlockType.Freeze) := by
  induction L generalizing g eb with
  | nil => exact Or.inl rfl
  | cons p rest ih =>
    obtain ⟨a, b⟩ := p
    rw [fixLoop_cons]
    by_cases hg : g a b = Core.BlockType.Empty
    · rw [if_pos hg]
      by_cases hb : a = 0 ∨ b = 0
      · rw [if_pos hb]
        exact Or.inl rfl
      · rw [if_neg hb]
        by_cases hhook : hasHookableNeighbor w h g a b = true
        · rw [if_pos hhook]
          rcases ih (setCell g a b Core.BlockType.Freeze) (setCell eb a b true) with
            hcase | ⟨hemp, hfr⟩
          · by_cases hxy : x = a ∧ y = b
            · obtain ⟨rfl, rfl⟩ := hxy
              refine Or.inr ⟨hg, ?_⟩
              rw [hcase]
              simp [setCell]
            · refine Or.inl ?_
              rw [hcase]
              simp only [setCell]
              rw [if_neg hxy]
          · by_cases hxy : x = a ∧ y = b
            · obtain ⟨rfl, rfl⟩ := hxy
              rw [setCell_same] at hemp
              cases hemp
            · rw [setCell_other _ _ _ _ _ _ hxy] at hemp
              exact Or.inr ⟨hemp, hfr⟩
        · rw [if_neg hhook]
          exact ih g eb
    · rw [if_neg hg]
      exact ih g eb

/-- The scan never creates or destroys Hookable blocks. -/
theorem fixLoop_hookable_iff (w h : Nat) (L : List (Nat × Nat))
    (g : Nat → Nat → Core.BlockType) (eb : Nat → Nat → Bool) (x y : Nat) :
    ((fixLoop w h g eb L).grid x y = Core.BlockType.Hookable
      ↔ g x y = Core.BlockType.Hookable) := by
  rcases fixLoop_frame w h L g eb x y with h1 | ⟨h1, h2⟩
  · rw [h1]
  · rw [h2]
    constructor
    · intro hk; cases hk
    · intro hk; rw [hk] at h1; cases h1

/-- `List.any` congruence (pointwise equal predicates). -/
theorem list_any_congr {β : Type} (l : List β) (f1 f2 : β → Bool)
    (h : ∀ a ∈ l, f1 a = f2 a) : l.any f1 = l.any f2 := by
  induction l with
  | nil => rfl
  | cons a l ih =>
    simp only [List.any_cons]
    rw [h a (List.mem_cons_self a l), ih fun b hb => h b (List.mem_cons_of_mem a hb)]

/-- The neighborhood test only depends on where the Hookable blocks are. -/
theorem hasHookableNeighbor_congr (w h : Nat)
    (g1 g2 : Nat → Nat → Core.BlockType)
    (hg : ∀ x y, (g1 x y = Core.BlockType.Hookable ↔ g2 x y = Core.BlockType.Hookable))
    (x y : Nat) :
    hasHookableNeighbor w h g1 x y = hasHookableNeighbor w h g2 x y := by
  unfold hasHookableNeighbor
  refine list_any_congr _ _ _ fun dx _ => ?_
  refine list_any_congr _ _ _ fun dy _ => ?_
  by_cases hc : dx = 1 ∧ dy = 1
  · rw [if_pos hc, if_pos hc]
  · rw [if_neg hc, if_neg hc,
      decide_eq_decide.mpr (hg (x + dx - 1) (y + dy - 1))]

/-- Core of C7: running the scan a second time over the resulting grid
changes nothing, including for scans that aborted with the border error. -/
theorem fixLoop_idem (w h : Nat) (L : List (Nat × Nat))
    (g : Nat → Nat → Core.BlockType) (eb eb2 : Nat → Nat → Bool) :
    (fixLoop w h (fixLoop w h g eb L).grid eb2 L).grid = (fixLoop w h g eb L).grid := by
  induction L generalizing g eb eb2 with
  | nil => rfl
  | cons p rest ih =>
    obtain ⟨a, b⟩ := p
    by_cases hg : g a b = Core.BlockType.Empty
    · by_cases hb : a = 0 ∨ b = 0
      · -- the first pass aborts here and so does the second
        have h1 : fixLoop w h g eb ((a, b) :: rest) = ⟨g, eb, false⟩ := by
          rw [fixLoop_cons, if_pos hg, if_pos hb]
        rw [h1, fixLoop_cons, if_pos hg, if_pos hb]
      · by_cases hhook : hasHookableNeighbor w h g a b = true
        · -- the first pass writes Freeze here; the second pass skips the cell
          have h1 : fixLoop w h g eb ((a, b) :: rest)
              = fixLoop w h (setCell g a b Core.BlockType.Freeze) (setCell eb a b true) rest := by
            rw [fixLoop_cons, if_pos hg, if_neg hb, if_pos hhook]
          rw [h1]
          have hval : (fixLoop w h (setCell g a b Core.BlockType.Freeze)
              (setCell eb a b true) rest).grid a b = Core.BlockType.Freeze := by
            rcases fixLoop_frame w h rest (setCell g a b Core.BlockType.Freeze)
                (setCell eb a b true) a b with hc | ⟨hc, _⟩
            · rw [hc, setCell_same]
            · rw [setCell_same] at hc
              cases hc
          rw [fixLoop_cons, if_neg (by rw [hval]; intro hx; cases hx)]
          exact ih _ _ _
        · -- no write here in either pass
          have h1 : fixLoop w h g eb ((a, b) :: rest) = fixLoop w h g eb rest := by
            rw [fixLoop_cons, if_pos hg, if_neg hb, if_neg hhook]
          rw [h1]
          rcases fixLoop_frame w h rest g eb a b with hc | ⟨_, hc⟩
          · -- the cell is still Empty: the second pass re-checks and skips
            have hhook2 : hasHookableNeighbor w h (fixLoop w h g eb rest).grid a b = false := by
              rw [hasHookableNeighbor_congr w h _ g
                (fun x y => fixLoop_hookable_iff w h rest g eb x y) a b]
              exact Bool.eq_false_iff.mpr hhook
            rw [fixLoop_cons, if_pos (by rw [hc]; exact hg), if_neg hb,
              if_neg (by rw [hhook2]; intro hx; cases hx)]
            exact ih _ _ _
          · -- the cell was turned to Freeze by a later write: second pass skips
            rw [fixLoop_cons, if_neg (by rw [hc]; intro hx; cases hx)]
            exact ih _ _ _
    · -- non-Empty cell: both passes skip (the block cannot have become Empty)
      have h1 : fixLoop w h g eb ((a, b) :: rest) = fixLoop w h g eb rest := by
        rw [fixLoop_cons, if_neg hg]
      rw [h1]
      have hval : ¬((fixLoop w h g eb rest).grid a b = Core.BlockType.Empty) := by
        rcases fixLoop_frame w h rest g eb a b with hc | ⟨hc, _⟩
        · rw [hc]; exact hg
        · exact absurd hc hg
      rw [fixLoop_cons, if_neg hval]
      exact ih _ _ _

/-- Characterization of a completed scan: a cell is rewritten (to Freeze)
exactly when it is a scanned Empty cell with a Hookable neighbor. -/
theorem fixLoop_char (w h : Nat) (L : List (Nat × Nat))
    (g : Nat → Nat → Core.BlockType) (eb : Nat → Nat → Bool)
    (hok : (fixLoop w h g eb L).ok = true) (x y : Nat) :
    (fixLoop w h g eb L).grid x y
      = if (x, y) ∈ L ∧ g x y = Core.BlockType.Empty
            ∧ hasHookableNeighbor w h g x y = true then
          Core.BlockType.Freeze
        else g x y := by
  induction L generalizing g eb with
  | nil =>
    rw [if_neg (by rintro ⟨hmem, -, -⟩; cases hmem)]
    rfl
  | cons p rest ih =>
    obtain ⟨a, b⟩ := p
    have hmemiff : ¬(x = a ∧ y = b) → (((x, y) ∈ (a, b) :: rest) ↔ ((x, y) ∈ rest)) := by
      intro hxy
      simp only [List.mem_cons]
      constructor
      · rintro (hp | hp)
        · exact absurd ⟨congrArg Prod.fst hp, congrArg Prod.snd hp⟩ hxy
        · exact hp
      · exact Or.inr
    by_cases hg : g a b = Core.BlockType.Empty
    · by_cases hb : a = 0 ∨ b = 0
      · exfalso
        rw [fixLoop_cons, if_pos hg, if_pos hb] at hok
        cases hok
      · by_cases hhook : hasHookableNeighbor w h g a b = true
        · rw [fixLoop_cons, if_pos hg, if_neg hb, if_pos hhook] at hok ⊢
          have hookcong : ∀ u v : Nat,
              hasHookableNeighbor w h (setCell g a b Core.BlockType.Freeze) u v
                = hasHookableNeighbor w h g u v := by
            intro u v
            refine hasHookableNeighbor_congr w h _ _ (fun s t => ?_) u v
            simp only [setCell]
            by_cases hst : s = a ∧ t = b
            · obtain ⟨rfl, rfl⟩ := hst
              rw [if_pos ⟨rfl, rfl⟩, hg]
              constructor
              · intro hk; cases hk
              · intro hk; cases hk
            · rw [if_neg hst]
          by_cases hxy : x = a ∧ y = b
          · obtain ⟨rfl, rfl⟩ := hxy
            have hL : (fixLoop w h (setCell g x y Core.BlockType.Freeze)
                (setCell eb x y true) rest).grid x y = Core.BlockType.Freeze := by
              rw [ih _ _ hok]
              rw [if_neg (by
                rintro ⟨-, hcontr, -⟩
                rw [setCell_same] at hcontr
                cases hcontr)]
              exact setCell_same _ _ _ _
            rw [hL, if_pos ⟨List.mem_cons_self _ _, hg, hhook⟩]
          · have hcell : setCell g a b Core.BlockType.Freeze x y = g x y := by
              simp only [setCell]; rw [if_neg hxy]
            rw [ih _ _ hok]
            have hcond : ((x, y) ∈ rest
                  ∧ setCell g a b Core.BlockType.Freeze x y = Core.BlockType.Empty
                  ∧ hasHookableNeighbor w h (setCell g a b Core.BlockType.Freeze) x y = true)
                ↔ ((x, y) ∈ (a, b) :: rest ∧ g x y = Core.BlockType.Empty
                  ∧ hasHookableNeighbor w h g x y = true) := by
              rw [hcell, hookcong x y]
              exact and_congr_left' (hmemiff hxy).symm
            rw [if_congr hcond rfl hcell]
        · rw [fixLoop_cons, if_pos hg, if_neg hb, if_neg hhook] at hok ⊢
          rw [ih _ _ hok]
          by_cases hxy : x = a ∧ y = b
          · obtain ⟨rfl, rfl⟩ := hxy
            rw [if_neg fun hcontr => hhook hcontr.2.2,
              if_neg fun hcontr => hhook hcontr.2.2]
          · exact if_congr (and_congr_left' (hmemiff hxy).symm) rfl rfl
    · rw [fixLoop_cons, if_neg hg] at hok ⊢
      rw [ih _ _ hok]
      by_cases hxy : x = a ∧ y = b
      · obtain ⟨rfl, rfl⟩ := hxy
        rw [if_neg fun hcontr => hg hcontr.2.1, if_neg fun hcontr => hg hcontr.2.1]
      · exact if_congr (and_congr_left' (hmemiff hxy).symm) rfl rfl

/-- Inversion of the stage transition. -/
theorem stageStep_cases (stage : Nat) (b : Core.BlockType) (s' : Nat)
    (h : stageStep stage b = some s') :
    (stage = 0 ∧ b = Core.BlockType.Freeze ∧ s' = 1)
      ∨ (stage = 1 ∧ b = Core.BlockType.Freeze ∧ s' = 1)
      ∨ (stage = 1 ∧ b = Core.BlockType.Hookable ∧ s' = 2)
      ∨ (stage = 2 ∧ b = Core.BlockType.Hookable ∧ s' = 2)
      ∨ (stage = 2 ∧ b = Core.BlockType.Freeze ∧ s' = 3)
      ∨ (stage = 3 ∧ b = Core.BlockType.Freeze ∧ s' = 3)
      ∨ (stage = 3 ∧ b = Core.BlockType.Empty ∧ s' = 4) := by
  match stage, b with
  | 0, Core.BlockType.Freeze =>
    simp only [stageStep, Option.some.injEq] at h
    exact Or.inl ⟨rfl, rfl, h.symm⟩
  | 1, Core.BlockType.Freeze =>
    simp only [stageStep, Option.some.injEq] at h
    exact Or.inr (Or.inl ⟨rfl, rfl, h.symm⟩)
  | 1, Core.BlockType.Hookable =>
    simp only [stageStep, Option.some.injEq] at h
    exact Or.inr (Or.inr (Or.inl ⟨rfl, rfl, h.symm⟩))
  | 2, Core.BlockType.Hookable =>
    simp only [stageStep, Option.some.injEq] at h
    exact Or.inr (Or.inr (Or.inr (Or.inl ⟨rfl, rfl, h.symm⟩)))
  | 2, Core.BlockType.Freeze =>
    simp only [stageStep, Option.some.injEq] at h
    exact Or.inr (Or.inr (Or.inr (Or.inr (Or.inl ⟨rfl, rfl, h.symm⟩))))
  | 3, Core.BlockType.Freeze =>
    simp only [stageStep, Option.some.injEq] at h
    exact Or.inr (Or.inr (Or.inr (Or.inr (Or.inr (Or.inl ⟨rfl, rfl, h.symm⟩)))))
  | 3, Core.BlockType.Empty =>
    simp only [stageStep, Option.some.injEq] at h
    exact Or.inr (Or.inr (Or.inr (Or.inr (Or.inr (Or.inr ⟨rfl, rfl, h.symm⟩)))))
  | 0, Core.BlockType.Empty | 0, Core.BlockType.EmptyReserved | 0, Core.BlockType.Hookable
  | 0, Core.BlockType.Spawn | 0, Core.BlockType.Start | 0, Core.BlockType.Finish
  | 0, Core.BlockType.Platform
  | 1, Core.BlockType.Empty | 1, Core.BlockType.EmptyReserved
  | 1, Core.BlockType.Spawn | 1, Core.BlockType.Start | 1, Core.BlockType.Finish
  | 1, Core.BlockType.Platform
  | 2, Core.BlockType.Empty | 2, Core.BlockType.EmptyReserved
  | 2, Core.BlockType.Spawn | 2, Core.BlockType.Start | 2, Core.BlockType.Finish
  | 2, Core.BlockType.Platform
  | 3, Core.BlockType.Hookable | 3, Core.BlockType.EmptyReserved
  | 3, Core.BlockType.Spawn | 3, Core.BlockType.Start | 3, Core.BlockType.Finish
  | 3, Core.BlockType.Platform =>
    exact absurd h (by simp [stageStep])
  | s + 4, b =>
    exact absurd h (by cases b <;> simp [stageStep])

/-- Unfolding equation for `shiftN` at a successor index. -/
theorem shiftN_succ (m : Map) (d : ShiftDirection) (p : Position) (n : Nat) :
    shiftN m d p (n + 1)
      = match shiftN m d p n with
        | none => none
        | some q => shiftInDirection q d m := rfl

end Gen
namespace Gen
section VarScope
variable {m : Map} {d : ShiftDirection} {p : Position}
/-- Unfolding equation: exhausted iteration budget. -/
theorem ccsLoop_zero (m : Map) (d : ShiftDirection) (minB : Nat)
    (pos : Position) (stage skipLen : Nat) :
    ccsLoop m d minB 0 pos stage skipLen
      = if stage = 4 then
          (if minB < skipLen then some (pos, skipLen) else none)
        else none := rfl

/-- Unfolding equation for one loop iteration. -/
theorem ccsLoop_succ (m : Map) (d : ShiftDirection) (minB fuel : Nat)
    (pos : Position) (stage skipLen : Nat) :
    ccsLoop m d minB (fuel + 1) pos stage skipLen
      = if stage = 4 then
          (if minB < skipLen then some (pos, skipLen) else none)
        else
          match shiftInDirection pos d m with
          | none => none
          | some pos' =>
            match stageStep stage (m.grid pos'.x pos'.y) with
            | none => none
            | some stage' => ccsLoop m d minB fuel pos' stage' (skipLen + 1) := rfl

theorem sufficesFrom_0_iff (k n : Nat) :
    sufficesFrom m d p 0 k n
      ↔ ∃ a b c, 1 ≤ a ∧ 1 ≤ b ∧ 1 ≤ c ∧ n = k + a + b + c + 1
        ∧ blocksRange m d p (k + 1) (k + a) Core.BlockType.Freeze
        ∧ blocksRange m d p (k + a + 1) (k + a + b) Core.BlockType.Hookable
        ∧ blocksRange m d p (k + a + b + 1) (k + a + b + c) Core.BlockType.Freeze
        ∧ blockAt m d p n Core.BlockType.Empty := Iff.rfl

theorem sufficesFrom_1_iff (k n : Nat) :
    sufficesFrom m d p 1 k n
      ↔ ∃ a b c, 1 ≤ b ∧ 1 ≤ c ∧ n = k + a + b + c + 1
        ∧ blocksRange m d p (k + 1) (k + a) Core.BlockType.Freeze
        ∧ blocksRange m d p (k + a + 1) (k + a + b) Core.BlockType.Hookable
        ∧ blocksRange m d p (k + a + b + 1) (k + a + b + c) Core.BlockType.Freeze
        ∧ blockAt m d p n Core.BlockType.Empty := Iff.rfl

theorem sufficesFrom_2_iff (k n : Nat) :
    sufficesFrom m d p 2 k n
      ↔ ∃ b c, 1 ≤ c ∧ n = k + b + c + 1
        ∧ blocksRange m d p (k + 1) (k + b) Core.BlockType.Hookable
        ∧ blocksRange m d p (k + b + 1) (k + b + c) Core.BlockType.Freeze
        ∧ blockAt m d p n Core.BlockType.Empty := Iff.rfl

theorem sufficesFrom_3_iff (k n : Nat) :
    sufficesFrom m d p 3 k n
      ↔ ∃ c, n = k + c + 1
        ∧ blocksRange m d p (k + 1) (k + c) Core.BlockType.Freeze
        ∧ blockAt m d p n Core.BlockType.Empty := Iff.rfl

theorem sufficesFrom_4_iff (k n : Nat) :
    sufficesFrom m d p 4 k n ↔ n = k := Iff.rfl

/-- Soundness of the loop: an accepted run yields a position/length pair
reachable by the staged walk, within the length bounds. -/
theorem ccsLoop_sound (minB : Nat) :
    ∀ (fuel : Nat) (pos : Position) (stage skipLen : Nat) (e : Position) (n : Nat),
      shiftN m d p skipLen = some pos →
      ccsLoop m d minB fuel pos stage skipLen = some (e, n) →
      skipLen ≤ n ∧ n ≤ skipLen + fuel ∧ minB < n ∧ shiftN m d p n = some e
        ∧ sufficesFrom m d p stage skipLen n := by
  intro fuel
  induction fuel with
  | zero =>
    intro pos stage skipLen e n hpos hrun
    rw [ccsLoop_zero] at hrun
    by_cases hst : stage = 4
    · subst hst
      rw [if_pos rfl] at hrun
      by_cases hmin : minB < skipLen
      · rw [if_pos hmin] at hrun
        have hpair : (pos, skipLen) = (e, n) := by injection hrun
        have he : pos = e := congrArg Prod.fst hpair
        have hn : skipLen = n := congrArg Prod.snd hpair
        subst he; subst hn
        exact ⟨le_refl _, by omega, hmin, hpos, (sufficesFrom_4_iff _ _).mpr rfl⟩
      · rw [if_neg hmin] at hrun
        exact Option.noConfusion hrun
    · rw [if_neg hst] at hrun
      exact Option.noConfusion hrun
  | succ fuel ih =>
    intro pos stage skipLen e n hpos hrun
    rw [ccsLoop_succ] at hrun
    by_cases hst : stage = 4
    · subst hst
      rw [if_pos rfl] at hrun
      by_cases hmin : minB < skipLen
      · rw [if_pos hmin] at hrun
        have hpair : (pos, skipLen) = (e, n) := by injection hrun
        have he : pos = e := congrArg Prod.fst hpair
        have hn : skipLen = n := congrArg Prod.snd hpair
        subst he; subst hn
        exact ⟨le_refl _, by omega, hmin, hpos, (sufficesFrom_4_iff _ _).mpr rfl⟩
      · rw [if_neg hmin] at hrun
        exact Option.noConfusion hrun
    · rw [if_neg hst] at hrun
      cases hshift : shiftInDirection pos d m with
      | none =>
        rw [hshift] at hrun
        exact Option.noConfusion hrun
      | some pos' =>
        rw [hshift] at hrun
        replace hrun : (match stageStep stage (m.grid pos'.x pos'.y) with
            | none => none
            | some stage' => ccsLoop m d minB fuel pos' stage' (skipLen + 1))
            = some (e, n) := hrun
        cases hstep : stageStep stage (m.grid pos'.x pos'.y) with
        | none =>
          rw [hstep] at hrun
          exact Option.noConfusion hrun
        | some stage' =>
          rw [hstep] at hrun
          replace hrun : ccsLoop m d minB fuel pos' stage' (skipLen + 1)
              = some (e, n) := hrun
          have hpos' : shiftN m d p (skipLen + 1) = some pos' := by
            rw [shiftN_succ, hpos]
            exact hshift
          obtain ⟨h1, h2, h3, h4, h5⟩ := ih pos' stage' (skipLen + 1) e n hpos' hrun
          refine ⟨by omega, by omega, h3, h4, ?_⟩
          have hblock : blockAt m d p (skipLen + 1) (m.grid pos'.x pos'.y) :=
            ⟨pos', hpos', rfl⟩
          rcases stageStep_cases stage _ _ hstep with
            ⟨rfl, hb, rfl⟩ | ⟨rfl, hb, rfl⟩ | ⟨rfl, hb, rfl⟩ | ⟨rfl, hb, rfl⟩
              | ⟨rfl, hb, rfl⟩ | ⟨rfl, hb, rfl⟩ | ⟨rfl, hb, rfl⟩
          · -- stage 0, Freeze, → 1
            rw [hb] at hblock
            rw [sufficesFrom_1_iff] at h5
            obtain ⟨a, b, c, hbb, hcc, hn, rF, rH, rF2, hE⟩ := h5
            rw [sufficesFrom_0_iff]
            refine ⟨a + 1, b, c, by omega, hbb, hcc, by omega, ?_, ?_, ?_, hE⟩
            · intro i hlo hhi
              by_cases hi : i = skipLen + 1
              · subst hi; exact hblock
              · exact rF i (by omega) (by omega)
            · intro i hlo hhi
              exact rH i (by omega) (by omega)
            · intro i hlo hhi
              exact rF2 i (by omega) (by omega)
          · -- stage 1, Freeze, → 1
            rw [hb] at hblock
            rw [sufficesFrom_1_iff] at h5 ⊢
            obtain ⟨a, b, c, hbb, hcc, hn, rF, rH, rF2, hE⟩ := h5
            refine ⟨a + 1, b, c, hbb, hcc, by omega, ?_, ?_, ?_, hE⟩
            · intro i hlo hhi
              by_cases hi : i = skipLen + 1
              · subst hi; exact hblock
              · exact rF i (by omega) (by omega)
            · intro i hlo hhi
              exact rH i (by omega) (by omega)
            · intro i hlo hhi
              exact rF2 i (by omega) (by omega)
          · -- stage 1, Hookable, → 2
            rw [hb] at hblock
            rw [sufficesFrom_2_iff] at h5
            obtain ⟨b, c, hcc, hn, rH, rF2, hE⟩ := h5
            rw [sufficesFrom_1_iff]
            refine ⟨0, b + 1, c, by omega, hcc, by omega, ?_, ?_, ?_, hE⟩
            · intro i hlo hhi
              exact absurd (hlo.trans hhi) (by omega)
            · intro i hlo hhi
              by_cases hi : i = skipLen + 1
              · subst hi; exact hblock
              · exact rH i (by omega) (by omega)
            · intro i hlo hhi
              exact rF2 i (by omega) (by omega)
          · -- stage 2, Hookable, → 2
            rw [hb] at hblock
            rw [sufficesFrom_2_iff] at h5 ⊢
            obtain ⟨b, c, hcc, hn, rH, rF2, hE⟩ := h5
            refine ⟨b + 1, c, hcc, by omega, ?_, ?_, hE⟩
            · intro i hlo hhi
              by_cases hi : i = skipLen + 1
              · subst hi; exact hblock
              · exact rH i (by omega) (by omega)
            · intro i hlo hhi
              exact rF2 i (by omega) (by omega)
          · -- stage 2, Freeze, → 3
            rw [hb] at hblock
            rw [sufficesFrom_3_iff] at h5
            obtain ⟨c, hn, rF2, hE⟩ := h5
            rw [sufficesFrom_2_iff]
            refine ⟨0, c + 1, by omega, by omega, ?_, ?_, hE⟩
            · intro i hlo hhi
              exact absurd (hlo.trans hhi) (by omega)
            · intro i hlo hhi
              by_cases hi : i = skipLen + 1
              · subst hi; exact hblock
              · exact rF2 i (by omega) (by omega)
          · -- stage 3, Freeze, → 3
            rw [hb] at hblock
            rw [sufficesFrom_3_iff] at h5 ⊢
            obtain ⟨c, hn, rF2, hE⟩ := h5
            refine ⟨c + 1, by omega, ?_, hE⟩
            · intro i hlo hhi
              by_cases hi : i = skipLen + 1
              · subst hi; exact hblock
              · exact rF2 i (by omega) (by omega)
          · -- stage 3, Empty, → 4 (accept)
            rw [hb] at hblock
            rw [sufficesFrom_4_iff] at h5
            rw [sufficesFrom_3_iff]
            refine ⟨0, by omega, ?_, ?_⟩
            · intro i hlo hhi
              exact absurd (hlo.trans hhi) (by omega)
            · rw [h5]
              exact hblock

end VarScope
end Gen
namespace Gen
section VarScope
variable {m : Map} {d : ShiftDirection} {p : Position}
variable {m : Map} {d : ShiftDirection} {p : Position}
/-- From a position at step `k` and a block at step `k + 1`, extract the
single shift taken by the loop. -/
theorem step_into {k : Nat} {pos : Position} {b : Core.BlockType}
    (hpos : shiftN m d p k = some pos) (hblk : blockAt m d p (k + 1) b) :
    ∃ q, shiftInDirection pos d m = some q ∧ shiftN m d p (k + 1) = some q
      ∧ m.grid q.x q.y = b := by
  obtain ⟨q, hq, hgrid⟩ := hblk
  refine ⟨q, ?_, hq, hgrid⟩
  have hstep := hq
  rw [shiftN_succ, hpos] at hstep
  exact hstep

/-- One successful loop iteration, as an equation between loop states. -/
theorem ccsLoop_step (minB fuel : Nat) (pos q : Position) (stage stage' k : Nat)
    (hst : ¬stage = 4)
    (hsh : shiftInDirection pos d m = some q)
    (htr : stageStep stage (m.grid q.x q.y) = some stage') :
    ccsLoop m d minB (fuel + 1) pos stage k = ccsLoop m d minB fuel q stage' (k + 1) := by
  rw [ccsLoop_succ, if_neg hst]
  simp only [hsh, htr]

/-- Completeness of the loop: a staged walk within the bounds makes the
loop accept with exactly that end position and length. -/
theorem ccsLoop_complete (minB : Nat) :
    ∀ (fuel stage k n : Nat) (pos e : Position),
      shiftN m d p k = some pos →
      sufficesFrom m d p stage k n →
      n ≤ k + fuel →
      minB < n →
      shiftN m d p n = some e →
      ccsLoop m d minB fuel pos stage k = some (e, n) := by
  intro fuel
  induction fuel with
  | zero =>
    intro stage k n pos e hpos hsuf hle hmin he
    rcases stage with _ | _ | _ | _ | _ | s
    · rw [sufficesFrom_0_iff] at hsuf
      obtain ⟨a, b, c, ha, hb, hc, hn, -⟩ := hsuf
      omega
    · rw [sufficesFrom_1_iff] at hsuf
      obtain ⟨a, b, c, hb, hc, hn, -⟩ := hsuf
      omega
    · rw [sufficesFrom_2_iff] at hsuf
      obtain ⟨b, c, hc, hn, -⟩ := hsuf
      omega
    · rw [sufficesFrom_3_iff] at hsuf
      obtain ⟨c, hn, -⟩ := hsuf
      omega
    · rw [sufficesFrom_4_iff] at hsuf
      subst hsuf
      rw [ccsLoop_zero, if_pos rfl, if_pos hmin]
      rw [hpos] at he
      have hpe : pos = e := by injection he
      rw [hpe]
    · exact (hsuf : False).elim
  | succ fuel ih =>
    intro stage k n pos e hpos hsuf hle hmin he
    rcases stage with _ | _ | _ | _ | _ | s
    · -- stage 0: the next block is Freeze
      rw [sufficesFrom_0_iff] at hsuf
      obtain ⟨a, b, c, ha, hb, hc, hn, rF, rH, rF2, hE⟩ := hsuf
      obtain ⟨a', rfl⟩ : ∃ a', a = a' + 1 := ⟨a - 1, by omega⟩
      have hblk : blockAt m d p (k + 1) Core.BlockType.Freeze :=
        rF (k + 1) (by omega) (by omega)
      obtain ⟨q, hsh, hq, hgrid⟩ := step_into hpos hblk
      rw [ccsLoop_step minB fuel pos q 0 1 k (by decide) hsh (by rw [hgrid]; rfl)]
      refine ih 1 (k + 1) n q e hq ?_ (by omega) hmin he
      rw [sufficesFrom_1_iff]
      exact ⟨a', b, c, hb, hc, by omega,
        fun i h1 h2 => rF i (by omega) (by omega),
        fun i h1 h2 => rH i (by omega) (by omega),
        fun i h1 h2 => rF2 i (by omega) (by omega), hE⟩
    · -- stage 1
      rw [sufficesFrom_1_iff] at hsuf
      obtain ⟨a, b, c, hb, hc, hn, rF, rH, rF2, hE⟩ := hsuf
      rcases a with _ | a'
      · -- no Freeze left in this stage: the next block is Hookable
        obtain ⟨b', rfl⟩ : ∃ b', b = b' + 1 := ⟨b - 1, by omega⟩
        have hblk : blockAt m d p (k + 1) Core.BlockType.Hookable :=
          rH (k + 1) (by omega) (by omega)
        obtain ⟨q, hsh, hq, hgrid⟩ := step_into hpos hblk
        rw [ccsLoop_step minB fuel pos q 1 2 k (by decide) hsh (by rw [hgrid]; rfl)]
        refine ih 2 (k + 1) n q e hq ?_ (by omega) hmin he
        rw [sufficesFrom_2_iff]
        exact ⟨b', c, hc, by omega,
          fun i h1 h2 => rH i (by omega) (by omega),
          fun i h1 h2 => rF2 i (by omega) (by omega), hE⟩
      · -- the next block is Freeze, stay in stage 1
        have hblk : blockAt m d p (k + 1) Core.BlockType.Freeze :=
          rF (k + 1) (by omega) (by omega)
        obtain ⟨q, hsh, hq, hgrid⟩ := step_into hpos hblk
        rw [ccsLoop_step minB fuel pos q 1 1 k (by decide) hsh (by rw [hgrid]; rfl)]
        refine ih 1 (k + 1) n q e hq ?_ (by omega) hmin he
        rw [sufficesFrom_1_iff]
        exact ⟨a', b, c, hb, hc, by omega,
          fun i h1 h2 => rF i (by omega) (by omega),
          fun i h1 h2 => rH i (by omega) (by omega),
          fun i h1 h2 => rF2 i (by omega) (by omega), hE⟩
    · -- stage 2
      rw [sufficesFrom_2_iff] at hsuf
      obtain ⟨b, c, hc, hn, rH, rF2, hE⟩ := hsuf
      rcases b with _ | b'
      · -- no Hookable left: the next block is Freeze
        obtain ⟨c', rfl⟩ : ∃ c', c = c' + 1 := ⟨c - 1, by omega⟩
        have hblk : blockAt m d p (k + 1) Core.BlockType.Freeze :=
          rF2 (k + 1) (by omega) (by omega)
        obtain ⟨q, hsh, hq, hgrid⟩ := step_into hpos hblk
        rw [ccsLoop_step minB fuel pos q 2 3 k (by decide) hsh (by rw [hgrid]; rfl)]
        refine ih 3 (k + 1) n q e hq ?_ (by omega) hmin he
        rw [sufficesFrom_3_iff]
        exact ⟨c', by omega,
          fun i h1 h2 => rF2 i (by omega) (by omega), hE⟩
      · -- the next block is Hookable, stay in stage 2
        have hblk : blockAt m d p (k + 1) Core.BlockType.Hookable :=
          rH (k + 1) (by omega) (by omega)
        obtain ⟨q, hsh, hq, hgrid⟩ := step_into hpos hblk
        rw [ccsLoop_step minB fuel pos q 2 2 k (by decide) hsh (by rw [hgrid]; rfl)]
        refine ih 2 (k + 1) n q e hq ?_ (by omega) hmin he
        rw [sufficesFrom_2_iff]
        exact ⟨b', c, hc, by omega,
          fun i h1 h2 => rH i (by omega) (by omega),
          fun i h1 h2 => rF2 i (by omega) (by omega), hE⟩
    · -- stage 3
      rw [sufficesFrom_3_iff] at hsuf
      obtain ⟨c, hn, rF2, hE⟩ := hsuf
      rcases c with _ | c'
      · -- the next block is the accepting Empty cell
        have hkn : n = k + 1 := by omega
        have hblk : blockAt m d p (k + 1) Core.BlockType.Empty := by
          rw [← hkn]
          exact hE
        obtain ⟨q, hsh, hq, hgrid⟩ := step_into hpos hblk
        rw [ccsLoop_step minB fuel pos q 3 4 k (by decide) hsh (by rw [hgrid]; rfl)]
        exact ih 4 (k + 1) n q e hq ((sufficesFrom_4_iff _ _).mpr hkn) (by omega) hmin he
      · -- the next block is Freeze, stay in stage 3
        have hblk : blockAt m d p (k + 1) Core.BlockType.Freeze :=
          rF2 (k + 1) (by omega) (by omega)
        obtain ⟨q, hsh, hq, hgrid⟩ := step_into hpos hblk
        rw [ccsLoop_step minB fuel pos q 3 3 k (by decide) hsh (by rw [hgrid]; rfl)]
        refine ih 3 (k + 1) n q e hq ?_ (by omega) hmin he
        rw [sufficesFrom_3_iff]
        exact ⟨c', by omega,
          fun i h1 h2 => rF2 i (by omega) (by omega), hE⟩
    · -- stage 4: accept immediately
      rw [sufficesFrom_4_iff] at hsuf
      subst hsuf
      rw [ccsLoop_succ, if_pos rfl, if_pos hmin]
      rw [hpos] at he
      have hpe : pos = e := by injection he
      rw [hpe]
    · exact (hsuf : False).elim

end VarScope
end Gen
section VarScope
variable {m : Map} {d : ShiftDirection} {p : Position}
variable {m : Map} {d : ShiftDirection} {p : Position}
/-- C5 (amended): `check_corner_skip` returns a record `(end, length)` if
and only if the walk from the candidate along its direction traverses
one or more Freeze cells, then one or more Hookable cells, then one or
more Freeze cells, then an Empty cell, with the total step count
*strictly greater than* `min_length` and at most `max_length` (the code
accepts only `skip_length > tunnel_bounds.0`; a walk of length exactly
`min_length` is rejected). -/
theorem check_corner_skip_iff (m : Gen.Map) (p : Position) (d : ShiftDirection)
    (minB maxB : Nat) (e : Position) (n : Nat) :
    Gen.check_corner_skip m p d (minB, maxB) = some (e, n)
      ↔ Gen.skipSpec m p d minB maxB e n := by
  constructor
  · intro h
    obtain ⟨h1, h2, h3, h4, h5⟩ :=
      Gen.ccsLoop_sound (m := m) (d := d) (p := p) minB maxB p 0 0 e n rfl h
    rw [Gen.sufficesFrom_0_iff] at h5
    obtain ⟨a, b, c, ha, hb, hc, hn, rF, rH, rF2, hE⟩ := h5
    obtain ⟨q, hq, hgrid⟩ := hE
    rw [h4] at hq
    have hqe : e = q := by injection hq
    refine ⟨a, b, c, ha, hb, hc, by omega, h3, by omega,
      fun i hlo hhi => rF i (by omega) (by omega),
      fun i hlo hhi => rH i (by omega) (by omega),
      fun i hlo hhi => rF2 i (by omega) (by omega),
      h4, by rw [hqe]; exact hgrid⟩
  · intro h
    obtain ⟨a, b, c, ha, hb, hc, hn, hminlt, hmax, rF, rH, rF2, he, hE⟩ := h
    refine Gen.ccsLoop_complete (m := m) (d := d) (p := p) minB maxB 0 0 n p e rfl
      ?_ (by omega) hminlt he
    rw [Gen.sufficesFrom_0_iff]
    exact ⟨a, b, c, ha, hb, hc, by omega,
      fun i hlo hhi => rF i (by omega) (by omega),
      fun i hlo hhi => rH i (by omega) (by omega),
      fun i hlo hhi => rF2 i (by omega) (by omega),
      ⟨e, he, hE⟩⟩

/-- C5 counterexample: walking right from `(0,0)` traverses the 4-stage
acceptance sequence with total step count 4, inside the claimed inclusive
range `[4, 10]` — yet `check_corner_skip` returns no record, because the
code demands `skip_length > min_length` strictly. -/
theorem check_corner_skip_counterexample :
    Gen.check_corner_skip skipMap ⟨0, 0⟩ .Right (4, 10) = none
      ∧ Gen.skipSpecIncl skipMap ⟨0, 0⟩ .Right 4 10 ⟨4, 0⟩ 4 := by
  refine ⟨by decide, 1, 1, 1, le_refl 1, le_refl 1, le_refl 1, by decide,
    by decide, by decide, ?_, ?_, ?_, by decide, by decide⟩
  · intro i h1 h2
    have hi : i = 1 := by omega
    subst hi
    exact ⟨⟨1, 0⟩, by decide, by decide⟩
  · intro i h1 h2
    have hi : i = 2 := by omega
    subst hi
    exact ⟨⟨2, 0⟩, by decide, by decide⟩
  · intro i h1 h2
    have hi : i = 3 := by omega
    subst hi
    exact ⟨⟨3, 0⟩, by decide, by decide⟩

/-- C7 counterexample (to the claim's description of one application):
cell `(0,0)` is Empty and has a Hookable cell in its 3×3 neighborhood, so
by the claim one application must convert it to Freeze; the code instead
hits the `checked_sub` error at the border cell and leaves it Empty. -/
theorem fix_edge_bugs_counterexample :
    borderEmptyMap.grid 0 0 = Core.BlockType.Empty
      ∧ Gen.hasHookableNeighbor 2 2 borderEmptyMap.grid 0 0 = true
      ∧ (Gen.fix_edge_bugs borderEmptyMap).grid 0 0 = Core.BlockType.Empty
      ∧ (Gen.fix_edge_bugs borderEmptyMap).ok = false :=
  ⟨by decide, by decide, by decide, by decide⟩

/-- C7 (amended): the edge-bug fix is idempotent on every grid — a second
application over the result changes nothing, whether or not the scan
aborted with the border error.  For scans that complete without error,
one application converts a scanned Empty cell to Freeze exactly when some
cell of its 3×3 neighborhood (excluding the cell itself) is Hookable;
aborted scans leave the cells at and after the first Empty top/left
border cell unprocessed. -/
theorem fix_edge_bugs_idempotent (m : Gen.Map) :
    (Gen.fix_edge_bugs { m with grid := (Gen.fix_edge_bugs m).grid }).grid
        = (Gen.fix_edge_bugs m).grid
      ∧ ((Gen.fix_edge_bugs m).ok = true →
        ∀ x < m.width, ∀ y < m.height,
          (Gen.fix_edge_bugs m).grid x y
            = if m.grid x y = Core.BlockType.Empty
                  ∧ Gen.hasHookableNeighbor m.width m.height m.grid x y = true then
                Core.BlockType.Freeze
              else m.grid x y) := by
  constructor
  · exact Gen.fixLoop_idem m.width m.height (coordList m.width m.height) m.grid
      (fun _ _ => false) (fun _ _ => false)
  · intro hok x hx y hy
    show (Gen.fixLoop m.width m.height m.grid (fun _ _ => false)
        (coordList m.width m.height)).grid x y = _
    rw [Gen.fixLoop_char m.width m.height (coordList m.width m.height) m.grid
      (fun _ _ => false) hok x y]
    exact if_congr (and_iff_right ((mem_coordList _ _ _).mpr ⟨hx, hy⟩)) rfl rfl

/-- C10: for every generator state, fuel budget and `min_freeze_size`,
`remove_freeze_blobs` leaves the block grid (the whole map) unchanged:
isolated Freeze components are only flagged in the `blobs_debug` layer,
and no cell of the map grid is ever written. -/
theorem remove_freeze_blobs_map_unchanged (fuel min_freeze_size : Nat) (g : Gen.Generator) :
    (Gen.remove_freeze_blobs fuel min_freeze_size g).map = g.map := by
  have hstep : ∀ (st : (Nat → Nat → Bool) × Gen.Generator) (p : Nat × Nat),
      (Gen.rfbStep fuel st p).2.map = st.2.map := by
    intro st p
    unfold Gen.rfbStep
    by_cases h1 : st.1 p.1 p.2 = true
    · rw [if_pos h1]
    · rw [if_neg h1]
      by_cases h2 : st.2.map.grid p.1 p.2 ≠ Core.BlockType.Freeze
      · rw [if_pos h2]
      · rw [if_neg h2]
        by_cases h3 : (Gen.blobLoop st.2.map.grid fuel st.1 [Position.mk p.1 p.2] [] true).2.2
            = true
        · rw [if_pos h3]
        · rw [if_neg h3]
  have hfold : ∀ (L : List (Nat × Nat)) (st : (Nat → Nat → Bool) × Gen.Generator),
      (L.foldl (Gen.rfbStep fuel) st).2.map = st.2.map := by
    intro L
    induction L with
    | nil => intro st; rfl
    | cons p L ih =>
      intro st
      rw [List.foldl_cons, ih, hstep]
  exact hfold _ _

/-- C6 counterexample: on a map whose `(0,0)` cell is Empty, the edge-bug
fix fails and `Generator::post_processing` unwraps that failure with
`expect` — the process terminates (modelled by `none`) instead of
returning a typed error to the caller. -/
theorem post_processing_panic_counterexample :
    Gen.Generator.post_processing smallGenerator Gen.defaultConfig = none := rfl

/-- C6 (amended): walker-step failures (invalid configuration,
out-of-bounds kernels) are returned to the caller as typed recoverable
results, and `fix_edge_bugs` reports its border error through a typed
result — but `Generator::post_processing` unwraps post-processing
failures with `expect`, so inputs exist on which post-processing
terminates the process instead of surfacing the error. -/
theorem error_channel_amended :
    (Gen.fix_edge_bugs smallGenerator.map).ok = false
      ∧ Gen.Generator.step smallGenerator emptyWaypointConfig
          = Except.error "config validation failed: no waypoints"
      ∧ (smallSrcMap.update smallWalker Src.KernelType.Inner).2
          = some "kernel out of bounds"
      ∧ Gen.Generator.post_processing smallGenerator Gen.defaultConfig = none := by
  refine ⟨by decide, rfl, by decide, rfl⟩

/-- C1: determinism — two complete runs of `Generator::generate_map` with
identical step budget, seed and configuration produce identical results,
in particular bit-identical final grids; the pipeline is a pure function
of `(max_steps, seed, config)` with the random source threaded explicitly
through every call. -/
theorem generate_map_deterministic (max_steps seed : Nat) (cfg : Gen.GenerationConfig)
    (r1 r2 : Gen.RunResult)
    (h1 : r1 = Gen.generate_map max_steps seed cfg)
    (h2 : r2 = Gen.generate_map max_steps seed cfg) :
    r1 = r2 := h1.trans h2.symm

/-- Witness for C1: two runs at seed 42 with the default configuration. -/
theorem generate_map_deterministic_witness :
    Gen.generate_map 10 42 Gen.defaultConfig = Gen.generate_map 10 42 Gen.defaultConfig :=
  generate_map_deterministic 10 42 Gen.defaultConfig _ _ rfl rfl

/-- C2: the selection loop keeps both skips of this sorted list although
their end points are at squared distance 2 < 25 = `min_spacing_sqr` —
the source compares `end` against `other_start` twice and never checks
`end` against `other_end`, so the end–end spacing guarantee fails. -/
theorem select_skips_missing_end_end_check :
    Gen.sortByLen [skipA, skipB] = [skipA, skipB]
      ∧ Gen.select_skips [skipA, skipB] 25 = [true, true]
      ∧ Position.distance_squared skipA.2.1 skipB.2.1 = 2
      ∧ 25 ≤ Position.distance_squared skipA.1 skipB.1
      ∧ 25 ≤ Position.distance_squared skipA.1 skipB.2.1
      ∧ 25 ≤ Position.distance_squared skipA.2.1 skipB.1 := by
  refine ⟨by decide, by decide, by decide, by decide, by decide, by decide⟩

end VarScope
